import Mathlib

/-!
Verification of the résumé evaluation engine.

Shallow embedding of the Python sources `nlp_analyzer.py`, `resume_scorer.py`
and `enhanced_analyzer.py` (the résumé evaluation pipeline).  Text is
modelled as `List Char`; Python regular-expression searches are embedded as
executable scanners that decide, for each concrete pattern of the source,
whether (or where) a match exists.  Python `float` arithmetic on scores is
modelled with exact rationals, and Python `round` (banker's rounding) is
modelled explicitly.
-/

namespace RV

/-! ## Character and string primitives -/

/-- Python regex `\w` over ASCII input: letters, digits and underscore. -/
def isWordCh (c : Char) : Bool := c.isAlphanum || c = '_'

/-- Python regex `\s` / `str.strip` whitespace over ASCII input. -/
def isSpaceCh (c : Char) : Bool :=
  c = ' ' || c = '\t' || c = '\n' || c = '\r' || c = '\x0b' || c = '\x0c'

def isDigitCh (c : Char) : Bool := c.isDigit

/-- ASCII lowering, as `str.lower` on the ASCII resumes this engine assumes. -/
def lowerL (s : List Char) : List Char := s.map Char.toLower

/-- ASCII upper-casing (`str.upper`). -/
def upperL (s : List Char) : List Char := s.map Char.toUpper

/-- `str.strip` (leading whitespace). -/
def stripLeft (s : List Char) : List Char := s.dropWhile isSpaceCh

/-- `str.strip` (both ends). -/
def stripBoth (s : List Char) : List Char :=
  ((s.dropWhile isSpaceCh).reverse.dropWhile isSpaceCh).reverse

/-- `str.isupper`: at least one cased character and no lowercase one (ASCII). -/
def isUpperStr (s : List Char) : Bool :=
  s.any Char.isAlpha && s.all (fun c => !c.isLower)

/-- `text.split('\n')`. -/
def splitNLAux : List Char → List Char → List (List Char)
  | [], cur => [cur.reverse]
  | c :: t, cur =>
      if c = '\n' then cur.reverse :: splitNLAux t []
      else splitNLAux t (c :: cur)

def splitNL (s : List Char) : List (List Char) := splitNLAux s []

/-- `str.split()` with no argument: words separated by whitespace runs. -/
def wordsAux : List Char → List Char → List (List Char)
  | [], cur => if cur.isEmpty then [] else [cur.reverse]
  | c :: t, cur =>
      if isSpaceCh c then
        if cur.isEmpty then wordsAux t [] else cur.reverse :: wordsAux t []
      else wordsAux t (c :: cur)

def wordsOf (s : List Char) : List (List Char) := wordsAux s []

def wordCount (s : List Char) : Nat := (wordsOf s).length

/-- Python `needle in hay` (substring containment). -/
def hasSub (hay needle : List Char) : Bool :=
  match hay with
  | [] => needle.isEmpty
  | _ :: t => needle.isPrefixOf hay || hasSub t needle

/-- Scanner for `countSub`: while `skip > 0` the position lies inside the
previous match and is passed over. -/
def countSubGo (needle : List Char) : Nat → List Char → Nat
  | _, [] => 0
  | skip + 1, _ :: t => countSubGo needle skip t
  | 0, c :: t =>
      if needle.isPrefixOf (c :: t) then
        1 + countSubGo needle (needle.length - 1) t
      else countSubGo needle 0 t

/-- Python `hay.count(needle)` for a non-empty needle: non-overlapping count. -/
def countSub (hay needle : List Char) : Nat :=
  if needle.isEmpty then 0 else countSubGo needle 0 hay

/-- Join a list of lines with single separating characters (Python `' '.join`). -/
def joinWith (sep : Char) : List (List Char) → List Char
  | [] => []
  | [x] => x
  | x :: y :: t => x ++ sep :: joinWith sep (y :: t)

/-- Count of distinct elements, as Python `len(set(xs))`. -/
def distinctCount {α : Type} [DecidableEq α] (xs : List α) : Nat :=
  xs.eraseDups.length

/-- Python `round` on an exact rational: round half to even (banker's). -/
def pyRound (x : ℚ) : ℤ :=
  if x - ⌊x⌋ < 1/2 then ⌊x⌋
  else if 1/2 < x - ⌊x⌋ then ⌊x⌋ + 1
  else if ⌊x⌋ % 2 = 0 then ⌊x⌋ else ⌊x⌋ + 1

/-- Python `round(x, 2)`. -/
def pyRound2 (x : ℚ) : ℚ := (pyRound (x * 100) : ℚ) / 100

/-! ## Generic regex-search scanners

Each concrete regular expression of the source is embedded as a scanner.
`scanWithPrev p s` decides whether `p` matches at some position of `s`, where
`p` receives the character preceding the position (for `\b` word-boundary
tests) and the suffix starting there. -/

/-- No word character on the left: the `\b` test before a word character. -/
def boundaryOk : Option Char → Bool
  | none => true
  | some c => !isWordCh c

/-- No word character on the right: the `\b` test after a word character. -/
def afterOk : List Char → Bool
  | [] => true
  | c :: _ => !isWordCh c

def scanWithPrev (p : Option Char → List Char → Bool) : Option Char → List Char → Bool
  | _, [] => false
  | prev, c :: t => p prev (c :: t) || scanWithPrev p (some c) t

/-- `re.search` existence of a whole-word literal `\b w \b` (w starts and ends
with word characters, as every literal used by the source does). -/
def occursWB (s w : List Char) : Bool :=
  scanWithPrev (fun prev suf => boundaryOk prev && w.isPrefixOf suf && afterOk (suf.drop w.length)) none s

/-- Existence of a literal with only a left `\b` (used for `\b(phone|...):`). -/
def occursLB (s w : List Char) : Bool :=
  scanWithPrev (fun prev suf => boundaryOk prev && w.isPrefixOf suf) none s

def occursWBAny (s : List Char) (ws : List (List Char)) : Bool :=
  ws.any (occursWB s)

/-- Consume exactly `n` digits. -/
def digitsN : Nat → List Char → Option (List Char)
  | 0, s => some s
  | _ + 1, [] => none
  | n + 1, c :: t => if isDigitCh c then digitsN n t else none

/-- After `@` in the email patterns `\w+@\w+\.\w+` / `\b\w+@\w+\.\w+\b`:
one or more word characters, a dot, one or more word characters. -/
def emailTail (s : List Char) : Bool :=
  let r1 := s.dropWhile isWordCh
  decide (s.takeWhile isWordCh ≠ []) &&
    (match r1 with
     | '.' :: r2 => decide (r2.takeWhile isWordCh ≠ [])
     | _ => false)

/-- `re.search(r'\w+@\w+\.\w+', s)` existence, optionally requiring the
word-bounded form `\b\w+@\w+\.\w+\b` (a word character right before `@`;
the surrounding `\b` are then automatic). -/
def emailSearch (requireWordBefore : Bool) (s : List Char) : Bool :=
  scanWithPrev
    (fun prev suf =>
      match suf with
      | '@' :: rest =>
          (!requireWordBefore || (match prev with | some c => isWordCh c | none => false)) &&
            emailTail rest
      | _ => false)
    none s

/-- Tail of `\b\d{3}[-.]?\d{3}[-.]?\d{4}\b` after the first three digits were
not yet consumed: `\d{4}\b`. -/
def phoneTail4 (s : List Char) : Bool :=
  match digitsN 4 s with
  | some r => afterOk r
  | none => false

/-- `\d{3}[-.]?\d{4}\b`. -/
def phoneTail34 (s : List Char) : Bool :=
  match digitsN 3 s with
  | some r =>
      phoneTail4 r ||
        (match r with
         | c :: t => (c = '-' || c = '.') && phoneTail4 t
         | [] => false)
  | none => false

/-- `re.search(r'\b\d{3}[-.]?\d{3}[-.]?\d{4}\b', s)` existence. -/
def phoneSearchWB (s : List Char) : Bool :=
  scanWithPrev
    (fun prev suf =>
      boundaryOk prev &&
        (match digitsN 3 suf with
         | some r =>
             phoneTail34 r ||
               (match r with
                | c :: t => (c = '-' || c = '.') && phoneTail34 t
                | [] => false)
         | none => false))
    none s

/-- `re.search(r'\d{3}-\d{3}-\d{4}', s)` existence (no boundaries). -/
def phoneSearchPlain (s : List Char) : Bool :=
  scanWithPrev
    (fun _ suf =>
      match digitsN 3 suf with
      | some ('-' :: r1) =>
          (match digitsN 3 r1 with
           | some ('-' :: r2) => (digitsN 4 r2).isSome
           | _ => false)
      | _ => false)
    none s

/-- `re.search(r'\(\d{3}\)', s)` existence. -/
def parenPhoneSearch (s : List Char) : Bool :=
  scanWithPrev
    (fun _ suf =>
      match suf with
      | '(' :: r =>
          (match digitsN 3 r with
           | some (')' :: _) => true
           | _ => false)
      | _ => false)
    none s

/-- `re.search(r'\+\d+', s)` existence. -/
def plusDigitSearch (s : List Char) : Bool :=
  scanWithPrev
    (fun _ suf =>
      match suf with
      | '+' :: c :: _ => isDigitCh c
      | _ => false)
    none s

/-! ## nlp_analyzer.py : detect_sections and the critical-section data -/

def nlpExperienceDetected (low : List Char) : Bool :=
  occursWBAny low (["experience", "work history", "employment", "work experience",
    "professional experience"].map String.data)

def nlpEducationDetected (low : List Char) : Bool :=
  occursWBAny low (["education", "academic", "degree"].map String.data)

def nlpSkillsDetected (low : List Char) : Bool :=
  occursWBAny low (["skills", "competencies", "technical skills", "core competencies",
    "professional skills"].map String.data)

def nlpContactDetected (low : List Char) : Bool :=
  occursWBAny low (["contact", "email", "phone", "address", "mobile", "tel"].map String.data) ||
    emailSearch false low || parenPhoneSearch low || phoneSearchPlain low ||
    plusDigitSearch low

def nlpSummaryDetected (low : List Char) : Bool :=
  occursWBAny low (["summary", "objective", "profile"].map String.data)

def nlpProjectsDetected (low : List Char) : Bool :=
  occursWBAny low (["projects", "portfolio"].map String.data)

def nlpCertificationsDetected (low : List Char) : Bool :=
  occursWBAny low (["certifications", "certificates"].map String.data)

/-- Section-name/detector table, in the dictionary order of the source. -/
def nlpSectionTable : List (String × (List Char → Bool)) :=
  [("experience", nlpExperienceDetected), ("education", nlpEducationDetected),
   ("skills", nlpSkillsDetected), ("contact", nlpContactDetected),
   ("summary", nlpSummaryDetected), ("projects", nlpProjectsDetected),
   ("certifications", nlpCertificationsDetected)]

def nlpRequiredSections : List String := ["experience", "skills", "contact"]

def nlpCriticalSections : List String := ["experience", "skills", "contact"]

structure NlpSections where
  found : List String
  missing : List String
  critical_missing : List String
  has_all_critical : Bool
deriving Repr, DecidableEq

/-- `nlp_analyzer.detect_sections`. -/
def detectSections (text : List Char) : NlpSections :=
  let low := lowerL text
  let found := (nlpSectionTable.filter (fun p => p.2 low)).map Prod.fst
  let missing := (nlpSectionTable.filter
    (fun p => !p.2 low && decide (p.1 ∈ nlpRequiredSections))).map Prod.fst
  let criticalMissing := nlpCriticalSections.filter (fun s => decide (s ∉ found))
  { found := found
    missing := missing
    critical_missing := criticalMissing
    has_all_critical := decide (criticalMissing.length = 0) }

/-! ## resume_scorer.py : calculate_score and its helpers -/

def headIsDigit : List Char → Bool
  | c :: _ => isDigitCh c
  | [] => false

def anyPrefixOf (pats : List (List Char)) (s : List Char) : Bool :=
  pats.any (·.isPrefixOf s)

/-- Existence of an occurrence of one of the literals `pats` whose following
suffix satisfies `cond` (used for regexes of the shape `(a|b|...)REST`). -/
def existsLitThen (pats : List (List Char)) (cond : List Char → Bool) : List Char → Bool
  | [] => false
  | c :: t =>
      (pats.any fun p => p.isPrefixOf (c :: t) && cond ((c :: t).drop p.length)) ||
        existsLitThen pats cond t

/-- `re.search(r'\d+%\s*(increase|improvement|growth|reduction|decrease)', low)`. -/
def achPercentGain (low : List Char) : Bool :=
  scanWithPrev
    (fun _ suf =>
      headIsDigit suf &&
        (match suf.dropWhile isDigitCh with
         | '%' :: r =>
             anyPrefixOf (["increase", "improvement", "growth", "reduction",
               "decrease"].map String.data) (r.dropWhile isSpaceCh)
         | _ => false))
    none low

/-- `re.search(r'\$[\d,]+', low)`. -/
def achDollar (low : List Char) : Bool :=
  scanWithPrev
    (fun _ suf =>
      match suf with
      | '$' :: c :: _ => isDigitCh c || c = ','
      | _ => false)
    none low

/-- `re.search(r'\d+\s*(users|customers|clients|projects|people|team members)', low)`. -/
def achScale (low : List Char) : Bool :=
  scanWithPrev
    (fun _ suf =>
      match suf with
      | c :: r =>
          isDigitCh c &&
            anyPrefixOf (["users", "customers", "clients", "projects", "people",
              "team members"].map String.data) (r.dropWhile isSpaceCh)
      | [] => false)
    none low

/-- `re.search(r'(saved|generated|increased|reduced)\s*(\$?[\d,]+|[\d.]+%)', low)`. -/
def achVerbMetric (low : List Char) : Bool :=
  existsLitThen (["saved", "generated", "increased", "reduced"].map String.data)
    (fun rest =>
      let r := rest.dropWhile isSpaceCh
      (match r with
       | '$' :: c :: _ => isDigitCh c || c = ','
       | c :: _ => isDigitCh c || c = ',' ||
           (c = '.' && (match r.dropWhile (fun d => isDigitCh d || d = '.') with
                        | '%' :: _ => true
                        | _ => false)) ||
           (isDigitCh c && (match r.dropWhile (fun d => isDigitCh d || d = '.') with
                            | '%' :: _ => true
                            | _ => false))
       | [] => false))
    low

/-- `re.search(r'(led|managed)\s*(team of|group of)?\s*\d+', low)`. -/
def achLedManaged (low : List Char) : Bool :=
  existsLitThen (["led", "managed"].map String.data)
    (fun rest =>
      let r := rest.dropWhile isSpaceCh
      (("team of".data.isPrefixOf r &&
          headIsDigit ((r.drop 7).dropWhile isSpaceCh)) ||
       ("group of".data.isPrefixOf r &&
          headIsDigit ((r.drop 8).dropWhile isSpaceCh)) ||
       headIsDigit r))
    low

def achievementPatternCount (low : List Char) : Nat :=
  ([achPercentGain, achDollar, achScale, achVerbMetric, achLedManaged].filter
    (fun f => f low)).length

/-- `IMPACT_WORDS` of resume_scorer.py. -/
def impactHighWords : List String :=
  ["increased", "decreased", "improved", "optimized", "reduced", "generated",
   "saved", "exceeded", "achieved", "delivered"]

def impactMediumWords : List String :=
  ["developed", "created", "implemented", "designed", "built", "established",
   "launched", "managed"]

def impactQuantifierWords : List String :=
  ["%", "percent", "$", "million", "thousand", "users", "customers", "team",
   "projects", "revenue"]

/-- `INDUSTRY_KEYWORDS` of resume_scorer.py. -/
def industryKeywordTable : List (String × List String) :=
  [("technology", ["python", "javascript", "react", "node.js", "aws", "docker",
     "kubernetes", "api", "database", "sql", "git", "agile", "scrum"]),
   ("data_science", ["machine learning", "data analysis", "python", "r", "sql",
     "tableau", "statistics", "modeling", "pandas", "numpy"]),
   ("business", ["strategy", "analysis", "management", "leadership",
     "project management", "stakeholder", "roi", "kpi"]),
   ("marketing", ["digital marketing", "seo", "social media", "analytics",
     "campaign", "brand", "conversion", "engagement"]),
   ("finance", ["financial analysis", "budgeting", "forecasting", "excel",
     "financial modeling", "accounting", "audit"])]

/-- `calculate_industry_relevance`: the rounded best industry score. -/
def industryRelevanceScore (technicalSkills : List String) (raw : List Char) : ℤ :=
  let low := lowerL raw
  let skillsLower := technicalSkills.map (fun s => lowerL s.data)
  let best : ℚ := industryKeywordTable.foldl
    (fun best p =>
      let nMatch : Nat := p.2.countP
        (fun kw => skillsLower.any (fun sk => hasSub sk kw.data) || hasSub low kw.data)
      let score : ℚ := min 5 ((nMatch : ℚ) * (8/10))
      if best < score then score else best)
    0
  pyRound best

/-- `calculate_achievement_impact`: the rounded 0–10 achievement score. -/
def achievementImpactScore (raw : List Char) : ℤ :=
  let low := lowerL raw
  let hi : Nat := impactHighWords.countP (fun w => hasSub low w.data)
  let med : Nat := impactMediumWords.countP (fun w => hasSub low w.data)
  let quant : Nat := impactQuantifierWords.countP (fun w => hasSub low w.data)
  let pm : Nat := achievementPatternCount low
  let score : ℚ :=
    min 4 ((hi : ℚ) * (8/10)) + min 3 ((med : ℚ) * (5/10)) +
      min 3 ((quant : ℚ) * (4/10)) +
      (if 0 < pm then min 2 ((pm : ℚ) * (5/10)) else 0)
  pyRound (min 10 score)

/-- Severity of one issue attached to a bullet point by nlp_analyzer. -/
inductive IssueSev | low | medium | high
deriving Repr, DecidableEq

structure NlpStats where
  total_bullets : Nat
  metrics_percentage : ℚ
  strong_verbs_percentage : ℚ
deriving Repr, DecidableEq

/-- The part of nlp_analyzer.analyze_text that calculate_score consumes:
its sections, statistics, and the issue severities of each bullet point. -/
structure NlpAnalysis where
  sections : NlpSections
  statistics : NlpStats
  bullet_points : List (List IssueSev)
deriving Repr, DecidableEq

structure Keywords where
  total_keywords : Nat
  technical_skills : List String
deriving Repr, DecidableEq

structure ScoreBreakdown where
  ats_compatibility : ℚ
  content_quality : ℚ
  keyword_optimization : ℚ
  structure_score : ℚ
  achievement_impact : ℚ
  language_quality : ℚ
deriving Repr, DecidableEq

/-- The zero breakdown that `calculate_score` initializes `scores` with. -/
def zeroBreakdown : ScoreBreakdown :=
  { ats_compatibility := 0, content_quality := 0, keyword_optimization := 0,
    structure_score := 0, achievement_impact := 0, language_quality := 0 }

structure ScoreResult where
  total : ℚ
  breakdown : ScoreBreakdown
  critical_failure : Bool
  missing_critical_sections : List String
deriving Repr, DecidableEq

/-- `resume_scorer.calculate_score`.  The first branch is the hard gate on the
critical sections; the second reproduces the six sub-scores and their sum. -/
def calculateScore (nlp : NlpAnalysis) (kw : Keywords) (raw : List Char) : ScoreResult :=
  if !nlp.sections.has_all_critical then
    { total := 0
      breakdown := zeroBreakdown
      critical_failure := true
      missing_critical_sections := nlp.sections.critical_missing }
  else
    let nFound := nlp.sections.found.length
    let nMissing := nlp.sections.missing.length
    let sectionScore : ℚ :=
      if 0 < nFound + nMissing then (nFound : ℚ) / ((nFound : ℚ) + (nMissing : ℚ)) * 25
      else 0
    let ats : ℚ := (pyRound sectionScore : ℚ)
    let stats := nlp.statistics
    let content : ℚ :=
      (pyRound (stats.metrics_percentage / 100 * 15 +
        stats.strong_verbs_percentage / 100 * 15) : ℚ)
    let baseKeyword : ℚ := min 15 ((kw.total_keywords : ℚ) * (15/10))
    let industryBonus : ℤ := industryRelevanceScore kw.technical_skills raw
    let keywordScore : ℚ := (pyRound (baseKeyword + (industryBonus : ℚ)) : ℚ)
    let bc := stats.total_bullets
    let structureScore : ℚ := if 8 ≤ bc ∧ bc ≤ 20 then 15 else if 0 < bc then 10 else 0
    let achievement : ℚ := (achievementImpactScore raw : ℚ)
    let nLangIssues : Nat :=
      (nlp.bullet_points.map (fun issues => issues.countP (· = IssueSev.low))).sum
    let languageScore : ℚ :=
      if 0 < nLangIssues then max 3 (5 - min 2 ((nLangIssues : ℚ) * (2/10))) else 5
    let language : ℚ := (pyRound languageScore : ℚ)
    let breakdown : ScoreBreakdown :=
      { ats_compatibility := ats, content_quality := content,
        keyword_optimization := keywordScore, structure_score := structureScore,
        achievement_impact := achievement, language_quality := language }
    { total := ats + content + keywordScore + structureScore + achievement + language
      breakdown := breakdown
      critical_failure := false
      missing_critical_sections := [] }

/-! ## enhanced_analyzer.py : section detection -/

inductive Sec
  | contact | summary | experience | education | skills
  | projects | certifications | languages | awards
deriving Repr, DecidableEq

/-- `self.logical_order`. -/
def logicalOrder : List Sec :=
  [.contact, .summary, .experience, .education, .skills, .projects,
   .certifications, .languages, .awards]

/-- `self.logical_order.index(section)`. -/
def logicalIndex : Sec → Nat
  | .contact => 0 | .summary => 1 | .experience => 2 | .education => 3
  | .skills => 4 | .projects => 5 | .certifications => 6 | .languages => 7
  | .awards => 8

/-- `self.section_patterns` (keyword containment lists), in dictionary order. -/
def sectionPatternsTable : List (Sec × List String) :=
  [(.contact, ["contact", "personal information", "header", "email:", "phone:",
     "tel:", "mobile:", "address:"]),
   (.summary, ["summary", "objective", "profile", "about", "overview"]),
   (.experience, ["experience", "work experience", "employment",
     "professional experience", "career", "work history"]),
   (.education, ["education", "academic background", "academic", "qualifications"]),
   (.skills, ["skills", "competencies", "technologies", "technical skills",
     "core competencies"]),
   (.projects, ["projects", "portfolio", "personal projects"]),
   (.certifications, ["certifications", "certificates", "credentials", "licenses"]),
   (.languages, ["languages", "language skills"]),
   (.awards, ["awards", "honors", "achievements", "recognition", "accomplishments"])]

/-- `section_exact_matches` of identify_section, in dictionary order. -/
def sectionExactTable : List (Sec × List String) :=
  [(.contact, ["contact information", "contact", "personal information"]),
   (.summary, ["summary", "professional summary", "objective", "profile",
     "about me", "overview"]),
   (.experience, ["experience", "work experience", "professional experience",
     "employment", "career history", "work", "professional"]),
   (.education, ["education", "academic background", "academic qualifications"]),
   (.skills, ["skills", "technical skills", "core competencies", "competencies"]),
   (.projects, ["projects", "personal projects", "portfolio", "project"]),
   (.certifications, ["certifications", "certificates", "credentials", "licenses"]),
   (.languages, ["languages", "language skills"]),
   (.awards, ["awards", "honors", "achievements", "recognition"])]

/-- `special_patterns` of identify_section (anchored prefix matches). -/
def sectionSpecialTable : List (Sec × List String) :=
  [(.skills, ["technical skills", "programming languages", "tools", "frameworks"]),
   (.education, ["education", "academic"]),
   (.projects, ["projects", "personal projects"]),
   (.experience, ["work experience", "professional experience"]),
   (.certifications, ["certifications", "certificates"]),
   (.languages, ["languages"]),
   (.awards, ["awards", "honors"])]

/-- The degree/GPA carve-out terms that stop a line from being classified as
an education header. -/
def eduCarveTerms : List String :=
  ["gpa", "bachelor", "master", "degree", "university of", "class", "semester"]

/-- The contact regexes of identify_section. -/
def identifyContactHit (lineLower : List Char) : Bool :=
  emailSearch true lineLower || phoneSearchWB lineLower ||
    (["phone:", "email:", "mobile:", "tel:", "address:"].map String.data).any
      (occursLB lineLower)

def exactMatchLookup (lineLower : List Char) (isCaps : Bool) :
    List (Sec × List String) → Option Sec
  | [] => none
  | (sec, kws) :: rest =>
      if kws.any (fun kw =>
           decide (lineLower = kw.data) ||
             (isCaps && decide (lineLower = upperL kw.data))) then some sec
      else exactMatchLookup lineLower isCaps rest

def partialMatchLookup (lineLower : List Char) :
    List (Sec × List String) → Option Sec
  | [] => none
  | (sec, kws) :: rest =>
      if kws.any (fun kw => hasSub lineLower kw.data) &&
         !(decide (sec = Sec.education) &&
           eduCarveTerms.any (fun t => hasSub lineLower t.data)) then some sec
      else partialMatchLookup lineLower rest

def specialMatchLookup (lineLower : List Char) :
    List (Sec × List String) → Option Sec
  | [] => none
  | (sec, kws) :: rest =>
      if kws.any (fun kw => kw.data.isPrefixOf lineLower) then some sec
      else specialMatchLookup lineLower rest

/-- `enhanced_analyzer.identify_section`. -/
def identifySection (line : List Char) : Option Sec :=
  let lineLower := stripBoth (lowerL line)
  let origLine := stripBoth line
  if line.length < 2 ∨ 60 < line.length then none
  else
    let isCaps := isUpperStr origLine
    if identifyContactHit lineLower then some .contact
    else
      match exactMatchLookup lineLower isCaps sectionExactTable with
      | some sec => some sec
      | none =>
          let fromPartial :=
            if (isCaps && decide (wordCount line ≤ 4)) || decide (wordCount line ≤ 2) then
              partialMatchLookup lineLower sectionPatternsTable
            else none
          match fromPartial with
          | some sec => some sec
          | none => specialMatchLookup lineLower sectionSpecialTable

/-- The stripped non-empty lines of a text, as the source computes them. -/
def cleanLines (text : List Char) : List (List Char) :=
  ((splitNL text).map stripBoth).filter (fun l => !l.isEmpty)

/-! ### Content-based inference regexes of analyze_sections -/

/-- `r'\b\d+\s+\w+\s+(street|ave|avenue|road|rd|blvd|boulevard)\b'`. -/
def addressSearch (low : List Char) : Bool :=
  scanWithPrev
    (fun prev suf =>
      boundaryOk prev && headIsDigit suf &&
        (let r1 := suf.dropWhile isDigitCh
         match r1 with
         | c1 :: _ =>
             isSpaceCh c1 &&
               (let r2 := r1.dropWhile isSpaceCh
                match r2 with
                | c2 :: _ =>
                    isWordCh c2 &&
                      (let r3 := r2.dropWhile isWordCh
                       match r3 with
                       | c3 :: _ =>
                           isSpaceCh c3 &&
                             (let r4 := r3.dropWhile isSpaceCh
                              (["street", "ave", "avenue", "road", "rd", "blvd",
                                "boulevard"].map String.data).any
                                (fun w => w.isPrefixOf r4 && afterOk (r4.drop w.length)))
                       | [] => false)
                | [] => false)
         | [] => false))
    none low

/-- The four contact-inference patterns of analyze_sections, applied to one
lower-cased line. -/
def contactInferenceHit (lowLine : List Char) : Bool :=
  emailSearch true lowLine || phoneSearchWB lowLine ||
    occursWB lowLine "linkedin.com".data || occursWB lowLine "github.com".data ||
    addressSearch lowLine

/-- A position after a newline-free gap satisfying `cond` exists. -/
def noNLThen (cond : List Char → Bool) : List Char → Bool
  | [] => cond []
  | c :: t => cond (c :: t) || (decide (c ≠ '\n') && noNLThen cond t)

/-- `r'\b(built|developed|created|designed)\s+.*(app|application|website|system)\b'`. -/
def builtThingSearch (low : List Char) : Bool :=
  scanWithPrev
    (fun prev suf =>
      boundaryOk prev &&
        (["built", "developed", "created", "designed"].map String.data).any
          (fun v =>
            v.isPrefixOf suf &&
              (let r := suf.drop v.length
               match r with
               | c :: _ =>
                   isSpaceCh c &&
                     noNLThen
                       (fun r2 =>
                         (["app", "application", "website", "system"].map
                           String.data).any
                           (fun w => w.isPrefixOf r2 && afterOk (r2.drop w.length)))
                       (r.dropWhile isSpaceCh)
               | [] => false)))
    none low

def educationInferenceHit (low : List Char) : Bool :=
  occursWBAny low (["university", "college", "school", "institute"].map String.data) ||
    occursWBAny low (["bachelor", "master", "phd", "degree", "diploma"].map String.data) ||
    occursWBAny low (["gpa", "grade", "graduated", "graduation"].map String.data)

def skillsInferenceHit (low : List Char) : Bool :=
  occursWBAny low (["programming languages", "programming language",
    "technical skills", "technical skill", "tools", "tool"].map String.data) ||
    occursWBAny low (["python", "java", "javascript", "html", "css", "react",
      "sql"].map String.data) ||
    occursWBAny low (["frameworks", "framework", "libraries", "databases",
      "database"].map String.data)

def projectsInferenceHit (low : List Char) : Bool :=
  occursWBAny low (["projects", "project"].map String.data) ||
    builtThingSearch low || occursWB low "source code".data

/-! ### Section order analysis -/

/-- Assoc-list assignment `d[k] = v` keeping the first-insertion key order, as
a Python dict does. -/
def assocSet : List (Sec × Nat) → Sec → Nat → List (Sec × Nat)
  | [], k, v => [(k, v)]
  | (a, b) :: t, k, v =>
      if a = k then (a, v) :: t else (a, b) :: assocSet t k v

/-- Stable insertion for `sortStable`: an element goes before later elements
with an equal key, as Python's stable `sorted` keeps original order. -/
def insStable (key : Sec × Nat → Nat) (x : Sec × Nat) :
    List (Sec × Nat) → List (Sec × Nat)
  | [] => [x]
  | y :: t => if key y < key x then y :: insStable key x t else x :: y :: t

/-- Stable sort by a numeric key (Python `sorted(..., key=...)`). -/
def sortStable (key : Sec × Nat → Nat) : List (Sec × Nat) → List (Sec × Nat)
  | [] => []
  | x :: t => insStable key x (sortStable key t)

structure OrderAnalysis where
  issues : List String
  is_logical : Bool
deriving Repr, DecidableEq

/-- The `logical_positions` dict of analyze_section_order. -/
def logicalPositions (sections : List Sec) : List (Sec × Nat) :=
  sections.foldl
    (fun acc s => if s ∈ logicalOrder then assocSet acc s (logicalIndex s) else acc)
    []

/-- `enhanced_analyzer.analyze_section_order`. -/
def analyzeSectionOrder (sections : List Sec) (positions : List (Sec × Nat)) :
    OrderAnalysis :=
  let lp := logicalPositions sections
  let actual := sortStable (fun p => ((positions.lookup p.1).getD 0)) lp
  let expected := sortStable (fun p => p.2) lp
  let issues : List String :=
    if actual ≠ expected then ["Section order is not optimal"] else []
  { issues := issues, is_logical := decide (issues.length = 0) }

structure SectionsResult where
  /-- `detected_sections` before deduplication, in detection order. -/
  detectedRaw : List Sec
  /-- `list(set(detected_sections))` (set order is unspecified in Python;
  first-occurrence order is used here, only membership is meaningful). -/
  detected_sections : List Sec
  missing_required : List Sec
  present_optional : List Sec
  duplicated_sections : List Sec
  order_analysis : OrderAnalysis
  section_positions : List (Sec × Nat)
deriving Repr, DecidableEq

/-- The first pass of analyze_sections: explicit headers with first-seen
positions. -/
def headerPass (lines : List (List Char)) : List Sec × List (Sec × Nat) :=
  (lines.enum.foldl
    (fun (acc : List Sec × List (Sec × Nat)) li =>
      match identifySection li.2 with
      | some sec =>
          (acc.1 ++ [sec],
           if acc.2.any (fun p => p.1 = sec) then acc.2 else acc.2 ++ [(sec, li.1)])
      | none => acc)
    ([], []))

/-- `enhanced_analyzer.analyze_sections`. -/
def analyzeSections (text : List Char) : SectionsResult :=
  let lines := cleanLines text
  let hp := headerPass lines
  -- contact inference over the first 10 lines
  let afterContact : List Sec × List (Sec × Nat) :=
    if Sec.contact ∉ hp.1 ∧ (lines.take 10).any (fun l => contactInferenceHit (lowerL l)) then
      (Sec.contact :: hp.1, hp.2 ++ [(Sec.contact, 0)])
    else hp
  let fullText := lowerL text
  let afterEducation : List Sec × List (Sec × Nat) :=
    if Sec.education ∉ afterContact.1 ∧ educationInferenceHit fullText then
      (afterContact.1 ++ [Sec.education],
       afterContact.2 ++ [(Sec.education, afterContact.1.length + 1)])
    else afterContact
  let afterSkills : List Sec × List (Sec × Nat) :=
    if Sec.skills ∉ afterEducation.1 ∧ skillsInferenceHit fullText then
      (afterEducation.1 ++ [Sec.skills],
       afterEducation.2 ++ [(Sec.skills, afterEducation.1.length + 1)])
    else afterEducation
  let afterProjects : List Sec × List (Sec × Nat) :=
    if Sec.projects ∉ afterSkills.1 ∧ projectsInferenceHit fullText then
      (afterSkills.1 ++ [Sec.projects],
       afterSkills.2 ++ [(Sec.projects, afterSkills.1.length + 1)])
    else afterSkills
  let detected := afterProjects.1
  let positions := afterProjects.2
  let requiredSections : List Sec := [.contact, .experience, .education, .skills]
  let optionalSections : List Sec := [.projects, .certifications, .languages, .awards]
  { detectedRaw := detected
    detected_sections := detected.eraseDups
    missing_required := requiredSections.filter (fun s => decide (s ∉ detected))
    present_optional := optionalSections.filter (fun s => decide (s ∈ detected))
    duplicated_sections := detected.eraseDups.filter (fun s => 1 < detected.count s)
    order_analysis := analyzeSectionOrder detected positions
    section_positions := positions }

/-! ## Bullet extraction

The findall captures of the bullet patterns `[•·▪▫‣⁃]\s*(.+)`,
`^[\s]*[\-\*]\s+(.+)`, `^\s*\d+\.\s+(.+)` and `^\s*[➤►▶]\s*(.+)`
(the latter three with `re.MULTILINE`). -/

def bulletGlyphs : List Char := ['•', '·', '▪', '▫', '‣', '⁃']

def arrowGlyphs : List Char := ['➤', '►', '▶']

/-- Greatest index of a non-newline character, with the character. -/
def lastNonNL : List Char → Option (Nat × Char)
  | [] => none
  | c :: t =>
      match lastNonNL t with
      | some (i, d) => some (i + 1, d)
      | none => if c ≠ '\n' then some (0, c) else none

/-- The `\s*(.+)` (or, with `needWs`, `\s+(.+)`) part after a bullet marker:
greedy whitespace, then at least one non-newline character captured up to the
end of the line.  Returns the capture and the number of characters consumed.
When only whitespace remains, the regex engine backtracks so that `.+` takes
the last non-newline whitespace character. -/
def capAfter (needWs : Bool) (s : List Char) : Option (List Char × Nat) :=
  let run := s.takeWhile isSpaceCh
  let rest := s.drop run.length
  if needWs && run.isEmpty then none
  else
    match rest with
    | _ :: _ =>
        some (rest.takeWhile (fun d => d ≠ '\n'),
          run.length + (rest.takeWhile (fun d => d ≠ '\n')).length)
    | [] =>
        match lastNonNL run with
        | some (i, d) => if needWs && i = 0 then none else some ([d], i + 1)
        | none => none

/-- Scanner for the glyph-bullet findall: `skip` counts positions still inside
the previous match. -/
def bulletsPatAGo : Nat → List Char → List (List Char)
  | _, [] => []
  | skip + 1, _ :: t => bulletsPatAGo skip t
  | 0, c :: t =>
      if c ∈ bulletGlyphs then
        match capAfter false t with
        | some (cap, n) => cap :: bulletsPatAGo n t
        | none => bulletsPatAGo 0 t
      else bulletsPatAGo 0 t

/-- findall for the unanchored glyph-bullet pattern `[•·▪▫‣⁃]\s*(.+)`. -/
def bulletsPatA (s : List Char) : List (List Char) := bulletsPatAGo 0 s

/-- `^[\s]*[\-\*]\s+(.+)` at a line start. -/
def matchDashBullet (s : List Char) : Option (List Char × Nat) :=
  let run := s.takeWhile isSpaceCh
  let rest := s.drop run.length
  match rest with
  | m :: r =>
      if m = '-' || m = '*' then
        match capAfter true r with
        | some (cap, n) => some (cap, run.length + 1 + n)
        | none => none
      else none
  | [] => none

/-- `^\s*\d+\.\s+(.+)` at a line start. -/
def matchNumBullet (s : List Char) : Option (List Char × Nat) :=
  let run := s.takeWhile isSpaceCh
  let rest := s.drop run.length
  let digits := rest.takeWhile isDigitCh
  if digits.isEmpty then none
  else
    match rest.drop digits.length with
    | '.' :: r =>
        match capAfter true r with
        | some (cap, n) => some (cap, run.length + digits.length + 1 + n)
        | none => none
    | _ => none

/-- `^\s*[➤►▶]\s*(.+)` at a line start. -/
def matchArrowBullet (s : List Char) : Option (List Char × Nat) :=
  let run := s.takeWhile isSpaceCh
  let rest := s.drop run.length
  match rest with
  | m :: r =>
      if m ∈ arrowGlyphs then
        match capAfter false r with
        | some (cap, n) => some (cap, run.length + 1 + n)
        | none => none
      else none
  | [] => none

/-- findall for a `^`-anchored pattern under `re.MULTILINE`: the matcher is
tried at line starts only; scanning resumes after each match (`skip` counts
positions still inside it, re-deriving the line-start flag from each
passed character). -/
def findallAnchoredGo (m : List Char → Option (List Char × Nat)) :
    Nat → Bool → List Char → List (List Char)
  | _, _, [] => []
  | skip + 1, _, c :: t => findallAnchoredGo m skip (decide (c = '\n')) t
  | 0, lineStart, c :: t =>
      if lineStart then
        match m (c :: t) with
        | some (cap, n) =>
            cap :: findallAnchoredGo m (n - 1) (decide (c = '\n')) t
        | none => findallAnchoredGo m 0 (decide (c = '\n')) t
      else findallAnchoredGo m 0 (decide (c = '\n')) t

def findallAnchored (m : List Char → Option (List Char × Nat)) (s : List Char) :
    List (List Char) :=
  findallAnchoredGo m 0 true s

/-- The four-pattern bullet collection of analyze_action_verbs, before
deduplication. -/
def collectBullets (text : List Char) : List (List Char) :=
  bulletsPatA text ++ findallAnchored matchDashBullet text ++
    findallAnchored matchNumBullet text ++
    findallAnchored matchArrowBullet text

/-- Strip, drop empties and deduplicate preserving first-seen order, as the
source's `seen` loop does. -/
def dedupClean : List (List Char) → List (List Char) → List (List Char)
  | [], _ => []
  | b :: t, seen =>
      let c := stripBoth b
      if !c.isEmpty && decide (c ∉ seen) then c :: dedupClean t (c :: seen)
      else dedupClean t seen

def extractBullets (text : List Char) : List (List Char) :=
  dedupClean (collectBullets text) []

/-! ## The eight impact patterns (`self.impact_patterns`)

Each matcher is case-sensitive with lower-case literals; callers model
`re.IGNORECASE` by passing the lower-cased text together with the
lower-cased `[KMB]` class, which is equivalent for these patterns. -/

/-- `r'\d+\.?\d*%'`. -/
def impPercent (s : List Char) : Bool :=
  scanWithPrev
    (fun _ suf =>
      headIsDigit suf &&
        (match suf.dropWhile isDigitCh with
         | '%' :: _ => true
         | '.' :: r2 =>
             (match r2.dropWhile isDigitCh with
              | '%' :: _ => true
              | _ => false)
         | _ => false))
    none s

/-- `r'\$[\d,]+(?:\.\d+)?[KMB]?'`: the optional tail parts never affect
matchability, a match exists exactly when `\$[\d,]` occurs. -/
def impDollar (s : List Char) : Bool :=
  scanWithPrev
    (fun _ suf =>
      match suf with
      | '$' :: c :: _ => isDigitCh c || c = ','
      | _ => false)
    none s

/-- `r'\d+[KMB]|\d{1,3}(?:,\d{3})+'` with the `[KMB]` class given by `kmb`. -/
def impLargeNum (kmb : List Char) (s : List Char) : Bool :=
  scanWithPrev
    (fun _ suf =>
      headIsDigit suf &&
        (match suf.dropWhile isDigitCh with
         | c :: _ => decide (c ∈ kmb)
         | [] => false))
    none s ||
  scanWithPrev
    (fun prev suf =>
      (match prev with | some c => isDigitCh c | none => false) &&
        (match suf with
         | ',' :: a :: b :: c :: _ => isDigitCh a && isDigitCh b && isDigitCh c
         | _ => false))
    none s

def timeWords : List (List Char) := ["hour", "day", "week", "month"].map String.data

/-- `r'(?:saved|reduced|decreased).*?(\d+).*?(hours?|days?|weeks?|months?)'`. -/
def impTimeSaved (s : List Char) : Bool :=
  existsLitThen (["saved", "reduced", "decreased"].map String.data)
    (noNLThen
      (fun r =>
        match r with
        | c :: t => isDigitCh c && noNLThen (anyPrefixOf timeWords) t
        | [] => false))
    s

/-- `r'(?:increased|improved|enhanced|boosted|grew).*?(\d+\.?\d*)%?'`. -/
def impPerfMetric (s : List Char) : Bool :=
  existsLitThen (["increased", "improved", "enhanced", "boosted", "grew"].map String.data)
    (noNLThen headIsDigit) s

/-- `r'(?:team|group) of (\d+)|led (\d+)|managed (\d+)'`. -/
def impTeamSize (s : List Char) : Bool :=
  existsLitThen (["team of ", "group of ", "led ", "managed "].map String.data)
    headIsDigit s

/-- `(\d+)\+?\s*WORDS`: a digit, an optional `+`, whitespace, one of the base
words (whose optional plural `s?` never affects matchability). -/
def digitPlusWords (ws : List (List Char)) (s : List Char) : Bool :=
  scanWithPrev
    (fun _ suf =>
      match suf with
      | c :: r =>
          isDigitCh c &&
            (let r1 := match r with | '+' :: t => t | _ => r
             anyPrefixOf ws (r1.dropWhile isSpaceCh))
      | [] => false)
    none s

/-- `r'(\d+)\+?\s*(?:customers?|clients?|users?|requests?)'`. -/
def impCustomers (s : List Char) : Bool :=
  digitPlusWords (["customer", "client", "user", "request"].map String.data) s

/-- `r'(\d+)\+?\s*(?:projects?|initiatives?|campaigns?)'`. -/
def impProjects (s : List Char) : Bool :=
  digitPlusWords (["project", "initiative", "campaign"].map String.data) s

/-- A bullet matches at least one of the eight impact-pattern categories.
`ic` models `re.IGNORECASE` (used by the quantification analyzer; the summary
analyzer searches case-sensitively). -/
def matchesAnyImpact (ic : Bool) (b : List Char) : Bool :=
  let s := if ic then lowerL b else b
  let kmb : List Char := if ic then ['k', 'm', 'b'] else ['K', 'M', 'B']
  impPercent s || impDollar s || impLargeNum kmb s || impTimeSaved s ||
    impPerfMetric s || impTeamSize s || impCustomers s || impProjects s

/-! ## enhanced_analyzer.analyze_quantification_enhanced -/

def taskIndicators : List String :=
  ["managed", "handled", "worked on", "responsible for", "involved in"]

structure QuantResult where
  total_bullets : Nat
  quantified_count : Nat
  quantification_percentage : ℚ
  vague_bullets : List (List Char)
  meets_threshold : Bool
deriving Repr, DecidableEq

/-- `enhanced_analyzer.analyze_quantification_enhanced` (the fields consumed
downstream; the example/recommendation string lists are not modelled). -/
def analyzeQuantification (text : List Char) : QuantResult :=
  let bullets := bulletsPatA text
  let quantified := bullets.filter (matchesAnyImpact true)
  let vague := bullets.filter
    (fun b =>
      !matchesAnyImpact true b &&
        taskIndicators.any (fun w => hasSub (lowerL b) w.data))
  let totalBullets := bullets.length
  let pct : ℚ :=
    if 0 < totalBullets then (quantified.length : ℚ) / (totalBullets : ℚ) * 100
    else 0
  { total_bullets := totalBullets
    quantified_count := quantified.length
    quantification_percentage := pct
    vague_bullets := vague.take 5
    meets_threshold := decide (30 ≤ pct) }

/-! ## enhanced_analyzer.analyze_action_verbs -/

inductive VerbCat | leadership | achievement | development | improvement | analysis
deriving Repr, DecidableEq

/-- `self.strong_verbs`, in dictionary order. -/
def strongVerbTable : List (VerbCat × List String) :=
  [(.leadership, ["led", "managed", "directed", "supervised", "coordinated",
     "oversaw", "guided", "mentored", "headed", "chaired", "orchestrated",
     "facilitated", "delegated", "coached", "superintended"]),
   (.achievement, ["achieved", "accomplished", "exceeded", "delivered",
     "completed", "attained", "surpassed", "earned", "secured", "won"]),
   (.development, ["developed", "created", "built", "designed", "implemented",
     "engineered", "constructed", "launched", "deployed", "prototyped",
     "pioneered", "established", "architected"]),
   (.improvement, ["improved", "enhanced", "optimized", "streamlined",
     "increased", "reduced", "minimized", "boosted", "accelerated", "upgraded",
     "refined", "simplified"]),
   (.analysis, ["analyzed", "evaluated", "assessed", "researched",
     "investigated", "examined", "studied", "audited", "diagnosed", "modeled",
     "forecasted"])]

def allStrongVerbs : List (List Char) :=
  (strongVerbTable.map (fun p => p.2.map String.data)).flatten

def weakVerbs : List (List Char) :=
  (["responsible", "worked", "helped", "assisted", "participated", "involved",
    "handled", "dealt"].map String.data)

def weakIdioms : List (List Char) :=
  (["responsible for", "worked on", "helped with"].map String.data)

/-- `get_verb_category`: the first category (in dictionary order) listing the
verb. -/
def getVerbCategory (v : List Char) : Option VerbCat :=
  (strongVerbTable.find? (fun p => p.2.any (fun w => w.data = v))).map Prod.fst

/-- `calculate_verb_impact`.  The first regex `\d+[%$KMB]?` matches exactly
when a digit occurs; the second is an improvement verb followed by a number
(searched with IGNORECASE). -/
def calcVerbImpact (b : List Char) : ℚ :=
  let score : ℚ := 70 + (if b.any isDigitCh then 20 else 0) +
    (if existsLitThen
         (["increased", "improved", "reduced", "saved", "generated"].map String.data)
         (noNLThen headIsDigit) (lowerL b) then 10 else 0)
  min score 100

structure StrongBullet where
  text : List Char
  verb : List Char
  category : Option VerbCat
  impact_score : ℚ
deriving Repr, DecidableEq

structure WeakBullet where
  text : List Char
  verb : List Char
deriving Repr, DecidableEq

/-- The first word of a bullet, lower-cased. -/
def firstWordOf (b : List Char) : List Char :=
  lowerL ((wordsOf (stripBoth b)).headD [])

/-- The first two words joined (lowered), or the first word when there is
only one, as the source computes `first_two`. -/
def firstTwoOf (b : List Char) : List Char :=
  let ws := wordsOf (stripBoth b)
  if 1 < ws.length then lowerL (joinWith ' ' (ws.take 2)) else firstWordOf b

inductive BulletClass | strong | weak | noVerb
deriving Repr, DecidableEq

def classifyBullet (b : List Char) : BulletClass :=
  let ws := wordsOf (stripBoth b)
  if ws.isEmpty then .noVerb
  else if firstWordOf b ∈ allStrongVerbs then .strong
  else if firstWordOf b ∈ weakVerbs ∨ firstTwoOf b ∈ weakIdioms then .weak
  else .noVerb

structure ActionVerbResult where
  total_bullets : Nat
  strong_verb_count : Nat
  weak_verb_count : Nat
  no_verb_count : Nat
  strong_percentage : ℚ
  weak_percentage : ℚ
  diversity_score : ℚ
  categories_used : List (VerbCat × Nat)
  action_verb_score : ℚ
  strong_verb_bullets : List StrongBullet
  weak_verb_bullets : List WeakBullet
  no_verb_bullets : List (List Char)
deriving Repr, DecidableEq

/-- `calculate_action_verb_score`. -/
def calcActionVerbScore (strongPct weakPct diversityScore : ℚ) (bulletCount : Nat) : ℚ :=
  if bulletCount = 0 then 0
  else
    let baseScore := strongPct * (8/10)
    let diversityBonus := diversityScore * (15/100)
    let weakPenalty := weakPct * (3/10)
    let quantityBonus := min ((bulletCount : ℚ) / 8) 1 * 5
    max (min (baseScore + diversityBonus + quantityBonus - weakPenalty) 100) 0

/-- `enhanced_analyzer.analyze_action_verbs` (recommendation strings are not
modelled). -/
def analyzeActionVerbs (text : List Char) : ActionVerbResult :=
  let bullets := extractBullets text
  let strongBullets : List StrongBullet :=
    (bullets.filter (fun b => classifyBullet b = .strong)).map
      (fun b =>
        { text := b, verb := firstWordOf b, category := getVerbCategory (firstWordOf b),
          impact_score := calcVerbImpact b })
  let weakBullets : List WeakBullet :=
    (bullets.filter (fun b => classifyBullet b = .weak)).map
      (fun b =>
        { text := b,
          verb := if firstTwoOf b ∈ weakIdioms then firstTwoOf b else firstWordOf b })
  let noVerbBullets := bullets.filter (fun b => classifyBullet b = .noVerb)
  let categoriesUsed : List (VerbCat × Nat) :=
    [VerbCat.leadership, .achievement, .development, .improvement, .analysis].map
      (fun cat =>
        (cat, (strongBullets.filter (fun sb => sb.category = some cat)).length))
  let totalBullets := bullets.length
  let strongCount := strongBullets.length
  let weakCount := weakBullets.length
  let strongPct : ℚ := (strongCount : ℚ) / (max totalBullets 1 : Nat) * 100
  let weakPct : ℚ := (weakCount : ℚ) / (max totalBullets 1 : Nat) * 100
  let categoriesUsedCount := categoriesUsed.countP (fun p => 0 < p.2)
  let diversityScore : ℚ := (categoriesUsedCount : ℚ) / 5 * 100
  { total_bullets := totalBullets
    strong_verb_count := strongCount
    weak_verb_count := weakCount
    no_verb_count := noVerbBullets.length
    strong_percentage := strongPct
    weak_percentage := weakPct
    diversity_score := diversityScore
    categories_used := categoriesUsed
    action_verb_score := calcActionVerbScore strongPct weakPct diversityScore totalBullets
    strong_verb_bullets := strongBullets
    weak_verb_bullets := weakBullets
    no_verb_bullets := noVerbBullets }

/-! ## enhanced_analyzer.analyze_summary_quality -/

def summaryHeaderKeywords : List String := ["summary", "objective", "profile", "about"]

/-- The explicit-header test of analyze_summary_quality: a line containing one
of the summary keywords, with at most five words. -/
def isSummaryHeaderLine (line : List Char) : Bool :=
  summaryHeaderKeywords.any (fun kw => hasSub (lowerL line) kw.data) &&
    decide (wordCount line ≤ 5)

/-- Candidate inferred-summary lines: stop at a section header, cap at 3. -/
def takeCandidateBlock : Nat → List (List Char) → List (List Char)
  | _, [] => []
  | 0, _ => []
  | n + 1, l :: t =>
      if (identifySection l).isSome then []
      else l :: takeCandidateBlock n t

/-- The block inferred near the top of a header-less document: skip the first
line (when there is more than one), window of 6, stop at headers, cap 3. -/
def inferredBlock (lines : List (List Char)) : List (List Char) :=
  let startIndex := if 1 < lines.length then 1 else 0
  takeCandidateBlock 3 ((lines.drop startIndex).take 6)

def genericSummaryPhrases : List String :=
  ["seeking opportunities", "looking for", "hard worker", "team player",
   "results driven", "detail oriented", "fast learner", "motivated individual",
   "excellent communication skills", "problem solver", "self starter"]

structure SummaryResult where
  has_summary : Bool
  summary_text : List Char
  word_count : Nat
  quality_score : ℚ
  generic_phrases_found : List String
  has_specific_skills : Bool
  has_metrics : Bool
deriving Repr, DecidableEq

/-- Quality scoring of a summary block (the common tail of the function). -/
def summaryQualityOf (summaryText : List Char) : SummaryResult :=
  let wc := wordCount summaryText
  let q1 : ℚ := if wc < 20 then 100 - 20 else if 100 < wc then 100 - 15 else 100
  let generic := genericSummaryPhrases.filter
    (fun p => hasSub (lowerL summaryText) p.data)
  let q2 : ℚ := q1 - (generic.length : ℚ) * 10
  let hasSkills := occursWBAny (lowerL summaryText)
    (["python", "java", "sql", "marketing", "sales", "engineering",
      "management"].map String.data)
  let q3 : ℚ := if !hasSkills then q2 - 15 else q2
  let hasMetrics := matchesAnyImpact false summaryText
  let q4 : ℚ := if !hasMetrics then q3 - 10 else q3
  { has_summary := true
    summary_text := summaryText
    word_count := wc
    quality_score := max q4 0
    generic_phrases_found := generic
    has_specific_skills := hasSkills
    has_metrics := hasMetrics }

/-- The no-summary result (the source's early return carries only
`has_summary`, `quality_score` and fixed message lists). -/
def noSummaryResult : SummaryResult :=
  { has_summary := false, summary_text := [], word_count := 0, quality_score := 0,
    generic_phrases_found := [], has_specific_skills := false, has_metrics := false }

/-- Index of the first line satisfying a predicate (the header-search loop). -/
def findHeaderIdx (p : List Char → Bool) : List (List Char) → Option Nat
  | [] => none
  | l :: t => if p l then some 0 else (findHeaderIdx p t).map (· + 1)

/-- The body collected after an explicit summary header at index `i`. -/
def headerBody (lines : List (List Char)) (i : Nat) : List (List Char) :=
  ((lines.drop (i + 1)).take 6).takeWhile
    (fun l => !l.isEmpty && (identifySection l).isNone)

/-- analyze_summary_quality over the stripped non-empty lines. -/
def summaryFromLines (lines : List (List Char)) : SummaryResult :=
  match findHeaderIdx isSummaryHeaderLine lines with
  | none =>
      if 15 ≤ wordCount (joinWith ' ' (inferredBlock lines)) ∧
          wordCount (joinWith ' ' (inferredBlock lines)) ≤ 80 then
        summaryQualityOf (joinWith ' ' (inferredBlock lines))
      else noSummaryResult
  | some i => summaryQualityOf (joinWith ' ' (headerBody lines i))

/-- `enhanced_analyzer.analyze_summary_quality`. -/
def analyzeSummaryQuality (text : List Char) : SummaryResult :=
  summaryFromLines (cleanLines text)

/-! ## enhanced_analyzer.analyze_buzzwords -/

inductive BuzzSev | critical | high | medium | low | pattern
deriving Repr, DecidableEq

/-- `get_severity_penalty`. -/
def sevPenalty : BuzzSev → ℚ
  | .critical => 15
  | .high => 10
  | .medium => 6
  | .low => 3
  | .pattern => 8

/-- `self.buzzwords`, in dictionary order. -/
def buzzTable : List (BuzzSev × List String) :=
  [(.critical, ["guru", "ninja", "rockstar", "superhero", "wizard", "god",
     "master", "expert", "thought leader", "visionary", "game-changer",
     "disruptor", "revolutionary", "cutting-edge", "bleeding-edge",
     "world-class", "best-in-class", "top-notch"]),
   (.high, ["motivated", "results-driven", "results oriented", "goal-oriented",
     "goal oriented", "detail-oriented", "detail oriented", "self-starter",
     "self motivated", "go-getter", "team player", "team-oriented",
     "people person", "hard worker", "fast learner", "quick learner",
     "highly motivated", "self-motivated", "proactive", "dynamic"]),
   (.medium, ["innovative", "creative", "passionate", "dedicated", "reliable",
     "flexible", "adaptable", "versatile", "strategic", "tactical", "hands-on",
     "customer-focused", "client-focused", "solution-oriented", "problem solver",
     "multitasker", "excellent communication", "strong communication",
     "great communication"]),
   (.low, ["synergy", "leverage", "utilize", "seamlessly", "holistic", "robust",
     "scalable", "optimization", "best practices", "core competencies",
     "value-added", "end-to-end", "turnkey", "mission-critical",
     "paradigm shift", "think outside the box", "low-hanging fruit",
     "move the needle"])]

structure BuzzEntry where
  word : List Char
  count : Nat
  severity : BuzzSev
  penalty : ℚ
deriving Repr, DecidableEq

/-- The entries contributed by one severity tier of the buzzword table. -/
def tierEntries (low : List Char) (p : BuzzSev × List String) : List BuzzEntry :=
  (p.2.filter (fun w => hasSub low w.data)).map
    (fun w =>
      { word := w.data, count := countSub low w.data, severity := p.1,
        penalty := sevPenalty p.1 * (countSub low w.data : ℚ) })

/-- The direct buzzword-list matches, count-weighted. -/
def buzzListEntries (low : List Char) : List BuzzEntry :=
  (buzzTable.map (tierEntries low)).flatten

/-- The entry appended for one occurrence of a buzzword regex pattern. -/
def patternEntry (m : List Char) : BuzzEntry :=
  { word := m, count := 1, severity := .pattern, penalty := 8 }

/-! ### The five buzzword regex patterns -/

def tryLit (pat : List Char) (s : List Char) : Option (List Char) :=
  if pat.isPrefixOf s then some (s.drop pat.length) else none

/-- A literal with the trailing `\b` of the pattern. -/
def tryLitWB (pat : List Char) (s : List Char) : Option (List Char) :=
  if pat.isPrefixOf s && afterOk (s.drop pat.length) then some (s.drop pat.length)
  else none

/-- `\s+` (greedy; the following literal is never whitespace). -/
def tryWs1 (s : List Char) : Option (List Char) :=
  match s with
  | c :: _ => if isSpaceCh c then some (s.dropWhile isSpaceCh) else none
  | [] => none

/-- The `.` wildcard (any character but a newline). -/
def tryDot (s : List Char) : Option (List Char) :=
  match s with
  | c :: t => if c ≠ '\n' then some t else none
  | [] => none

def tryAlts (pats : List (List Char)) (s : List Char) : Option (List Char) :=
  pats.firstM (fun p => tryLit p s)

def tryAltsWB (pats : List (List Char)) (s : List Char) : Option (List Char) :=
  pats.firstM (fun p => tryLitWB p s)

/-- `r'\b(?:highly|extremely|very)\s+(?:motivated|skilled|experienced|qualified)\b'`. -/
def buzzP1 (prev : Option Char) (s : List Char) : Option Nat :=
  if !boundaryOk prev then none
  else
    (tryAlts (["highly", "extremely", "very"].map String.data) s >>= tryWs1 >>=
      tryAltsWB (["motivated", "skilled", "experienced",
        "qualified"].map String.data)).map (fun r => s.length - r.length)

/-- `r'\b(?:excellent|outstanding|exceptional|superior)\s+(?:communication|leadership|problem.solving)\s+skills?\b'`. -/
def buzzP2 (prev : Option Char) (s : List Char) : Option Nat :=
  if !boundaryOk prev then none
  else
    (tryAlts (["excellent", "outstanding", "exceptional",
        "superior"].map String.data) s >>= tryWs1 >>=
      (fun r =>
        tryLit "communication".data r <|> tryLit "leadership".data r <|>
          (tryLit "problem".data r >>= tryDot >>= tryLit "solving".data)) >>=
      tryWs1 >>=
      (fun r => tryLitWB "skills".data r <|> tryLitWB "skill".data r)).map
      (fun r => s.length - r.length)

/-- `r'\b(?:proven|demonstrated|strong)\s+(?:track record|ability|experience|background)\b'`. -/
def buzzP3 (prev : Option Char) (s : List Char) : Option Nat :=
  if !boundaryOk prev then none
  else
    (tryAlts (["proven", "demonstrated", "strong"].map String.data) s >>= tryWs1 >>=
      tryAltsWB (["track record", "ability", "experience",
        "background"].map String.data)).map (fun r => s.length - r.length)

/-- `r'\b(?:results?.driven|goal.oriented|detail.oriented|customer.focused)\b'`. -/
def buzzP4 (prev : Option Char) (s : List Char) : Option Nat :=
  if !boundaryOk prev then none
  else
    (((tryLit "results".data s >>= tryDot >>= tryLitWB "driven".data) <|>
      (tryLit "result".data s >>= tryDot >>= tryLitWB "driven".data) <|>
      (tryLit "goal".data s >>= tryDot >>= tryLitWB "oriented".data) <|>
      (tryLit "detail".data s >>= tryDot >>= tryLitWB "oriented".data) <|>
      (tryLit "customer".data s >>= tryDot >>= tryLitWB "focused".data))).map
      (fun r => s.length - r.length)

/-- `r'\b(?:team\s+player|self.starter|go.getter|people\s+person)\b'`. -/
def buzzP5 (prev : Option Char) (s : List Char) : Option Nat :=
  if !boundaryOk prev then none
  else
    (((tryLit "team".data s >>= tryWs1 >>= tryLitWB "player".data) <|>
      (tryLit "self".data s >>= tryDot >>= tryLitWB "starter".data) <|>
      (tryLit "go".data s >>= tryDot >>= tryLitWB "getter".data) <|>
      (tryLit "people".data s >>= tryWs1 >>= tryLitWB "person".data))).map
      (fun r => s.length - r.length)

/-- `re.findall` for a length-matcher: non-overlapping leftmost matches,
returning the matched substrings.  `skip` counts positions still inside the
previous match; the preceding character is tracked for `\b` tests. -/
def findallPatGo (f : Option Char → List Char → Option Nat) :
    Nat → Option Char → List Char → List (List Char)
  | _, _, [] => []
  | skip + 1, _, c :: t => findallPatGo f skip (some c) t
  | 0, prev, c :: t =>
      match f prev (c :: t) with
      | some n =>
          (c :: t).take (max n 1) :: findallPatGo f (max n 1 - 1) (some c) t
      | none => findallPatGo f 0 (some c) t

def findallPat (f : Option Char → List Char → Option Nat) (s : List Char) :
    List (List Char) :=
  findallPatGo f 0 none s

def buzzPatterns : List (Option Char → List Char → Option Nat) :=
  [buzzP1, buzzP2, buzzP3, buzzP4, buzzP5]

structure BuzzResult where
  buzzwords_found : List BuzzEntry
  total_buzzwords : Nat
  total_penalty : ℚ
  buzzword_score : ℚ
deriving Repr, DecidableEq

/-- `enhanced_analyzer.analyze_buzzwords`. -/
def analyzeBuzzwords (text : List Char) : BuzzResult :=
  let low := lowerL text
  let listEntries := buzzListEntries low
  let patMatches := (buzzPatterns.map (fun f => findallPat f low)).flatten
  let patEntries : List BuzzEntry := patMatches.map patternEntry
  let entries := listEntries ++ patEntries
  let totalPenalty : ℚ := (entries.map (·.penalty)).sum
  { buzzwords_found := entries
    total_buzzwords := entries.length
    total_penalty := totalPenalty
    buzzword_score := max (100 - totalPenalty) 0 }

/-! ## enhanced_analyzer.analyze_formatting -/

inductive DateFmt | year_only | month_year | full_date
deriving Repr, DecidableEq

/-- `normalize_date_format`. -/
def normalizeDateFormat (d : List Char) : DateFmt :=
  if (digitsN 4 d).isSome then .year_only
  else
    let run := d.takeWhile isWordCh
    if !run.isEmpty &&
        (match d.drop run.length with
         | ' ' :: r => (digitsN 4 r).isSome
         | _ => false) then .month_year
    else .full_date

/-- `\d{1,2}[\/\-]\d{1,2}[\/\-]\d{2,4}` with the backtracking preference order
(two digits before one, four before three before two). -/
def dateAlt1 (s : List Char) : Option (List Char) :=
  let sep : List Char → Option (List Char) := fun r =>
    match r with
    | c :: t => if c = '/' || c = '-' then some t else none
    | [] => none
  let g3 : List Char → Option (List Char) := fun r =>
    digitsN 4 r <|> digitsN 3 r <|> digitsN 2 r
  let g2 : List Char → Option (List Char) := fun r =>
    (digitsN 2 r >>= sep >>= g3) <|> (digitsN 1 r >>= sep >>= g3)
  (digitsN 2 s >>= sep >>= g2) <|> (digitsN 1 s >>= sep >>= g2)

/-- `\w+ \d{4}`. -/
def dateAlt2 (s : List Char) : Option (List Char) :=
  let run := s.takeWhile isWordCh
  if run.isEmpty then none
  else
    match s.drop run.length with
    | ' ' :: r => digitsN 4 r
    | _ => none

/-- The matcher of `r'\d{1,2}[\/\-]\d{1,2}[\/\-]\d{2,4}|\w+ \d{4}|\d{4}'`. -/
def fmtDateLen (_ : Option Char) (s : List Char) : Option Nat :=
  (dateAlt1 s <|> dateAlt2 s <|> digitsN 4 s).map (fun r => s.length - r.length)

structure FormattingResult where
  bullet_consistency : Bool
  date_consistency : Bool
  formatting_score : ℚ
deriving Repr, DecidableEq

/-- `calculate_formatting_score`. -/
def calcFormattingScore (bulletConsistency dateConsistency : Bool) : ℚ :=
  100 - (if !bulletConsistency then 25 else 0) - (if !dateConsistency then 25 else 0)

/-- `enhanced_analyzer.analyze_formatting`. -/
def analyzeFormatting (text : List Char) : FormattingResult :=
  let lines := splitNL text
  let styles : List Char := lines.filterMap
    (fun l =>
      match l.dropWhile isSpaceCh with
      | c :: _ => if c ∈ bulletGlyphs then some c else none
      | [] => none)
  let bulletConsistency :=
    if styles.isEmpty then true else decide (distinctCount styles ≤ 1)
  let dateMatches := findallPat fmtDateLen text
  let dateConsistency :=
    decide (distinctCount (dateMatches.map normalizeDateFormat) ≤ 2)
  { bullet_consistency := bulletConsistency
    date_consistency := dateConsistency
    formatting_score := calcFormattingScore bulletConsistency dateConsistency }

/-! ## Writing-quality and modernization score formulas -/

/-- `calculate_professionalism_score` over the four issue counts. -/
def calcProfessionalismScore (informal vague passive pronouns : Nat) : ℚ :=
  max (100 - (informal : ℚ) * 5 - (vague : ℚ) * 3 - min ((passive : ℚ) * 2) 20 -
    min ((pronouns : ℚ) * 1) 15) 0

/-- The `modernization_score` formula of analyze_unnecessary_sections over the
summed severity weights of the found outdated sections. -/
def modernizationScoreOf (severityScore : Nat) : ℚ :=
  max (100 - (severityScore : ℚ) * 10) 0

/-! ## enhanced_analyzer.calculate_final_score -/

/-- The inputs that calculate_final_score reads from the analysis dict. -/
structure Analysis where
  quantification_percentage : ℚ
  has_dates : Bool
  format_consistency : Bool
  chronological_order_issue_count : Nat
  has_summary : Bool
  summary_quality_score : ℚ
  action_verb_score : ℚ
  buzzword_score : ℚ
  total_technical_skills : Nat
  total_soft_skills : Nat
  missing_required_count : Nat
  duplicated_count : Nat
  order_is_logical : Bool
  formatting_score : ℚ
  flesch_score : ℚ
  total_buzzwords : Nat
  professionalism_score : ℚ
  modernization_score : ℚ
deriving Repr, DecidableEq

structure FinalWeights where
  quantify_impact : ℚ
  dates : ℚ
  summary : ℚ
  action_verbs : ℚ
  skills_section : ℚ
  structure_w : ℚ
  ats_compatibility : ℚ
  writing_quality : ℚ
  chronology : ℚ
  unnecessary_sections : ℚ
deriving Repr, DecidableEq

/-- The fixed weight table of calculate_final_score. -/
def finalWeights : FinalWeights :=
  { quantify_impact := 12/100, dates := 8/100, summary := 6/100,
    action_verbs := 10/100, skills_section := 10/100, structure_w := 12/100,
    ats_compatibility := 24/100, writing_quality := 8/100, chronology := 6/100,
    unnecessary_sections := 4/100 }

def weightsSum : ℚ :=
  finalWeights.quantify_impact + finalWeights.dates + finalWeights.summary +
    finalWeights.action_verbs + finalWeights.skills_section +
    finalWeights.structure_w + finalWeights.ats_compatibility +
    finalWeights.writing_quality + finalWeights.chronology +
    finalWeights.unnecessary_sections

structure CategoryScores where
  quantify_impact : ℚ
  dates : ℚ
  summary : ℚ
  action_verbs : ℚ
  buzzwords : ℚ
  skills_section : ℚ
  structure_s : ℚ
  ats_compatibility : ℚ
  writing_quality : ℚ
  readability : ℚ
  formatting : ℚ
  chronology : ℚ
  unnecessary_sections : ℚ
deriving Repr, DecidableEq

inductive Grade | A | B | C | D | F
deriving Repr, DecidableEq

/-- `get_score_grade`. -/
def getScoreGrade (score : ℚ) : Grade :=
  if 90 ≤ score then .A
  else if 80 ≤ score then .B
  else if 70 ≤ score then .C
  else if 60 ≤ score then .D
  else .F

structure FinalScoreResult where
  category_scores : CategoryScores
  weights : FinalWeights
  final_score : ℚ
  grade : Grade
deriving Repr, DecidableEq

/-- The thirteen category scores of calculate_final_score. -/
def categoryScoresOf (a : Analysis) : CategoryScores :=
  { quantify_impact := min (a.quantification_percentage * 2) 100
    dates :=
      if a.has_dates = false then 0
      else if a.format_consistency && decide (a.chronological_order_issue_count = 0)
        then 100
      else if a.format_consistency then 60
      else 40
    summary := if !a.has_summary then 0 else min a.summary_quality_score 100
    action_verbs := a.action_verb_score
    buzzwords := a.buzzword_score
    skills_section :=
      min (((a.total_technical_skills + a.total_soft_skills : Nat) : ℚ) * 6) 100
    structure_s :=
      max (100 - (a.missing_required_count : ℚ) * 20 -
        (a.duplicated_count : ℚ) * 10 -
        (if !a.order_is_logical then 15 else 0)) 0
    ats_compatibility :=
      (min a.formatting_score 100 + min (max a.flesch_score 0) 100 +
        max (100 - (a.total_buzzwords : ℚ) * 10) 0 +
        max (100 - (a.missing_required_count : ℚ) * 25) 0) / 4
    writing_quality := a.professionalism_score
    readability := min (max a.flesch_score 0) 100
    formatting := a.formatting_score
    chronology := max (100 - (a.chronological_order_issue_count : ℚ) * 15) 0
    unnecessary_sections := a.modernization_score }

/-- The weighted sum `sum(scores[criterion] * weights[criterion])` over the
ten weighted criteria. -/
def weightedTotal (s : CategoryScores) : ℚ :=
  s.quantify_impact * finalWeights.quantify_impact + s.dates * finalWeights.dates +
    s.summary * finalWeights.summary + s.action_verbs * finalWeights.action_verbs +
    s.skills_section * finalWeights.skills_section +
    s.structure_s * finalWeights.structure_w +
    s.ats_compatibility * finalWeights.ats_compatibility +
    s.writing_quality * finalWeights.writing_quality +
    s.chronology * finalWeights.chronology +
    s.unnecessary_sections * finalWeights.unnecessary_sections

/-- `enhanced_analyzer.calculate_final_score`. -/
def calcFinalScore (a : Analysis) : FinalScoreResult :=
  let scores := categoryScoresOf a
  let final := weightedTotal scores
  { category_scores := scores
    weights := finalWeights
    final_score := pyRound2 final
    grade := getScoreGrade final }

/-! ## Specification-side expressions used by the theorem statements -/

/-- The count-weighted list penalty, written as a sum over the whole buzzword
table (unmatched words contribute a zero count). -/
def buzzListPenaltySpec (low : List Char) : ℚ :=
  (buzzTable.map (fun p =>
    (p.2.map (fun w => (countSub low w.data : ℚ) * sevPenalty p.1)).sum)).sum

/-- The number of occurrences of the five buzzword regex patterns. -/
def buzzPatternCount (low : List Char) : Nat :=
  (buzzPatterns.map (fun f => (findallPat f low).length)).sum

/-- Key membership in an assoc list (a Python `in` on dict keys). -/
def containsKey : List (Sec × Nat) → Sec → Bool
  | [], _ => false
  | p :: t, k => decide (p.1 = k) || containsKey t k

/-! # Theorems -/

/-! ## Rounding bounds -/

theorem pyRound_ge {x : ℚ} {lo : ℤ} (h : (lo : ℚ) ≤ x) : lo ≤ pyRound x := by
  have hf : lo ≤ ⌊x⌋ := Int.le_floor.mpr h
  unfold pyRound
  split_ifs <;> omega

theorem pyRound_le {x : ℚ} {hi : ℤ} (h : x ≤ (hi : ℚ)) : pyRound x ≤ hi := by
  have hf : ⌊x⌋ ≤ hi := by
    have h1 : ⌊x⌋ ≤ ⌊(hi : ℚ)⌋ := Int.floor_le_floor h
    simpa using h1
  have hfl : (⌊x⌋ : ℚ) ≤ x := Int.floor_le x
  unfold pyRound
  split_ifs with h1 h2 h3
  · exact hf
  · have hlt : (⌊x⌋ : ℚ) < (hi : ℚ) := by linarith
    have : ⌊x⌋ < hi := by exact_mod_cast hlt
    omega
  · exact hf
  · have hlt : (⌊x⌋ : ℚ) < (hi : ℚ) := by
      have hge : (1 : ℚ) / 2 ≤ x - ⌊x⌋ := le_of_not_lt h1
      linarith
    have : ⌊x⌋ < hi := by exact_mod_cast hlt
    omega

theorem pyRound2_bounds {x : ℚ} (h0 : 0 ≤ x) (h1 : x ≤ 100) :
    0 ≤ pyRound2 x ∧ pyRound2 x ≤ 100 := by
  have hg : (0 : ℤ) ≤ pyRound (x * 100) := pyRound_ge (by push_cast; linarith)
  have hl : pyRound (x * 100) ≤ (10000 : ℤ) := pyRound_le (by push_cast; linarith)
  unfold pyRound2
  constructor
  · exact div_nonneg (by exact_mod_cast hg) (by norm_num)
  · rw [div_le_iff₀ (by norm_num : (0 : ℚ) < 100)]
    calc (pyRound (x * 100) : ℚ) ≤ 10000 := by exact_mod_cast hl
      _ = 100 * 100 := by norm_num

/-! ## C1 : the hard gate of calculate_score -/

/-- In detect_sections, `has_all_critical` holds exactly when the experience,
skills and contact detectors all fire. -/
theorem detect_has_all_critical (t : List Char) :
    (detectSections t).has_all_critical =
      (nlpExperienceDetected (lowerL t) && nlpSkillsDetected (lowerL t) &&
        nlpContactDetected (lowerL t)) := by
  unfold detectSections
  cases hE : nlpExperienceDetected (lowerL t) <;>
    cases hD : nlpEducationDetected (lowerL t) <;>
      cases hS : nlpSkillsDetected (lowerL t) <;>
        cases hC : nlpContactDetected (lowerL t) <;>
          cases hSu : nlpSummaryDetected (lowerL t) <;>
            cases hP : nlpProjectsDetected (lowerL t) <;>
              cases hCe : nlpCertificationsDetected (lowerL t) <;>
                simp [nlpSectionTable, nlpCriticalSections, nlpRequiredSections,
                  hE, hD, hS, hC, hSu, hP, hCe]

/-- C1: for every input text in which at least one of the sections experience,
skills, or contact is not detected by nlp_analyzer.detect_sections, the score
returned by resume_scorer.calculate_score has total exactly 0 and the
critical-failure flag set, regardless of the statistics, bullet points,
keywords and remaining raw content. -/
theorem C1_missing_critical_zero_total (t : List Char) (stats : NlpStats)
    (bps : List (List IssueSev)) (kw : Keywords)
    (h : nlpExperienceDetected (lowerL t) = false ∨
         nlpSkillsDetected (lowerL t) = false ∨
         nlpContactDetected (lowerL t) = false) :
    (calculateScore
        { sections := detectSections t, statistics := stats, bullet_points := bps }
        kw t).total = 0 ∧
      (calculateScore
        { sections := detectSections t, statistics := stats, bullet_points := bps }
        kw t).critical_failure = true := by
  have hg : (detectSections t).has_all_critical = false := by
    rw [detect_has_all_critical]
    rcases h with h | h | h <;> simp [h]
  unfold calculateScore
  simp [hg]

theorem C1_missing_critical_zero_total_witness :
    (nlpExperienceDetected (lowerL "hello world".data) = false ∨
       nlpSkillsDetected (lowerL "hello world".data) = false ∨
       nlpContactDetected (lowerL "hello world".data) = false) ∧
      (calculateScore
          { sections := detectSections "hello world".data,
            statistics := { total_bullets := 0, metrics_percentage := 0,
                            strong_verbs_percentage := 0 },
            bullet_points := [] }
          { total_keywords := 0, technical_skills := [] } "hello world".data).total = 0 ∧
      (calculateScore
          { sections := detectSections "hello world".data,
            statistics := { total_bullets := 0, metrics_percentage := 0,
                            strong_verbs_percentage := 0 },
            bullet_points := [] }
          { total_keywords := 0, technical_skills := [] } "hello world".data).critical_failure = true := by
  refine ⟨Or.inl (by decide), ?_⟩
  exact C1_missing_critical_zero_total "hello world".data
    { total_bullets := 0, metrics_percentage := 0, strong_verbs_percentage := 0 }
    [] { total_keywords := 0, technical_skills := [] } (Or.inl (by decide))

/-! ## C2 : the weight table and the final-score bounds

The hypotheses of the main theorem are exactly the ranges that the analyzers
producing the aggregator's inputs guarantee; the supporting lemmas below
establish them for the embedded producers. -/

theorem calcActionVerbScore_bounds (sp wp ds : ℚ) (bc : Nat) :
    0 ≤ calcActionVerbScore sp wp ds bc ∧ calcActionVerbScore sp wp ds bc ≤ 100 := by
  unfold calcActionVerbScore
  split_ifs with h
  · norm_num
  · exact ⟨le_max_right _ _, max_le (min_le_right _ _) (by norm_num)⟩

theorem calcProfessionalismScore_bounds (informal vague passive pronouns : Nat) :
    0 ≤ calcProfessionalismScore informal vague passive pronouns ∧
      calcProfessionalismScore informal vague passive pronouns ≤ 100 := by
  unfold calcProfessionalismScore
  refine ⟨le_max_right _ _, max_le ?_ (by norm_num)⟩
  have h1 : (0 : ℚ) ≤ (informal : ℚ) * 5 := by positivity
  have h2 : (0 : ℚ) ≤ (vague : ℚ) * 3 := by positivity
  have h3 : (0 : ℚ) ≤ min ((passive : ℚ) * 2) 20 := le_min (by positivity) (by norm_num)
  have h4 : (0 : ℚ) ≤ min ((pronouns : ℚ) * 1) 15 := le_min (by positivity) (by norm_num)
  linarith

theorem modernizationScoreOf_bounds (w : Nat) :
    0 ≤ modernizationScoreOf w ∧ modernizationScoreOf w ≤ 100 := by
  unfold modernizationScoreOf
  refine ⟨le_max_right _ _, max_le ?_ (by norm_num)⟩
  have : (0 : ℚ) ≤ (w : ℚ) * 10 := by positivity
  linarith

theorem calcFormattingScore_cases (bc dc : Bool) :
    calcFormattingScore bc dc = 50 ∨ calcFormattingScore bc dc = 75 ∨
      calcFormattingScore bc dc = 100 := by
  cases bc <;> cases dc <;> norm_num [calcFormattingScore]

theorem calcFormattingScore_nonneg (bc dc : Bool) : 0 ≤ calcFormattingScore bc dc := by
  rcases calcFormattingScore_cases bc dc with h | h | h <;> rw [h] <;> norm_num

theorem analyzeQuantification_pct_nonneg (t : List Char) :
    0 ≤ (analyzeQuantification t).quantification_percentage := by
  unfold analyzeQuantification
  dsimp only
  split_ifs with h
  · positivity
  · norm_num

theorem summaryQualityOf_nonneg (s : List Char) :
    0 ≤ (summaryQualityOf s).quality_score := by
  unfold summaryQualityOf
  exact le_max_right _ _

theorem summaryFromLines_nonneg (lines : List (List Char)) :
    0 ≤ (summaryFromLines lines).quality_score := by
  unfold summaryFromLines
  cases h : findHeaderIdx isSummaryHeaderLine lines with
  | none =>
      split_ifs with hr
      · exact summaryQualityOf_nonneg _
      · norm_num [noSummaryResult]
  | some i => exact summaryQualityOf_nonneg _

theorem analyzeSummaryQuality_nonneg (t : List Char) :
    0 ≤ (analyzeSummaryQuality t).quality_score :=
  summaryFromLines_nonneg (cleanLines t)

/-- Pure arithmetic core: a convex combination with the source's fixed weights
of ten scores in [0, 100] stays in [0, 100]. -/
theorem weighted_sum_bounds (q d su av sk st ats w ch un : ℚ)
    (hq : 0 ≤ q ∧ q ≤ 100) (hd : 0 ≤ d ∧ d ≤ 100) (hsu : 0 ≤ su ∧ su ≤ 100)
    (hav : 0 ≤ av ∧ av ≤ 100) (hsk : 0 ≤ sk ∧ sk ≤ 100) (hst : 0 ≤ st ∧ st ≤ 100)
    (hats : 0 ≤ ats ∧ ats ≤ 100) (hw : 0 ≤ w ∧ w ≤ 100) (hch : 0 ≤ ch ∧ ch ≤ 100)
    (hun : 0 ≤ un ∧ un ≤ 100) :
    0 ≤ q * (12/100) + d * (8/100) + su * (6/100) + av * (10/100) + sk * (10/100) +
        st * (12/100) + ats * (24/100) + w * (8/100) + ch * (6/100) + un * (4/100) ∧
      q * (12/100) + d * (8/100) + su * (6/100) + av * (10/100) + sk * (10/100) +
        st * (12/100) + ats * (24/100) + w * (8/100) + ch * (6/100) + un * (4/100) ≤ 100 := by
  obtain ⟨hq0, hq1⟩ := hq
  obtain ⟨hd0, hd1⟩ := hd
  obtain ⟨hsu0, hsu1⟩ := hsu
  obtain ⟨hav0, hav1⟩ := hav
  obtain ⟨hsk0, hsk1⟩ := hsk
  obtain ⟨hst0, hst1⟩ := hst
  obtain ⟨hats0, hats1⟩ := hats
  obtain ⟨hw0, hw1⟩ := hw
  obtain ⟨hch0, hch1⟩ := hch
  obtain ⟨hun0, hun1⟩ := hun
  constructor <;> linarith

theorem weightedTotal_bounds (a : Analysis)
    (hq : 0 ≤ a.quantification_percentage)
    (hs : 0 ≤ a.summary_quality_score)
    (hav0 : 0 ≤ a.action_verb_score) (hav1 : a.action_verb_score ≤ 100)
    (hp0 : 0 ≤ a.professionalism_score) (hp1 : a.professionalism_score ≤ 100)
    (hm0 : 0 ≤ a.modernization_score) (hm1 : a.modernization_score ≤ 100)
    (hf0 : 0 ≤ a.formatting_score) :
    0 ≤ weightedTotal (categoryScoresOf a) ∧
      weightedTotal (categoryScoresOf a) ≤ 100 := by
  simp only [weightedTotal, categoryScoresOf, finalWeights]
  refine weighted_sum_bounds _ _ _ _ _ _ _ _ _ _ ?_ ?_ ?_ ?_ ?_ ?_ ?_ ?_ ?_ ?_
  · exact ⟨le_min (by linarith) (by norm_num), min_le_right _ _⟩
  · constructor
    · split_ifs <;> norm_num
    · split_ifs <;> norm_num
  · constructor
    · split_ifs with h
      · norm_num
      · exact le_min hs (by norm_num)
    · split_ifs with h
      · norm_num
      · exact min_le_right _ _
  · exact ⟨hav0, hav1⟩
  · exact ⟨le_min (by positivity) (by norm_num), min_le_right _ _⟩
  · constructor
    · exact le_max_right _ _
    · refine max_le ?_ (by norm_num)
      have h1 : (0 : ℚ) ≤ (a.missing_required_count : ℚ) * 20 := by positivity
      have h2 : (0 : ℚ) ≤ (a.duplicated_count : ℚ) * 10 := by positivity
      have h3 : (0 : ℚ) ≤ (if !a.order_is_logical then (15 : ℚ) else 0) := by
        split_ifs <;> norm_num
      linarith
  · -- ats compatibility: the average of four clamped factors
    have e1 : 0 ≤ min a.formatting_score 100 ∧ min a.formatting_score 100 ≤ 100 :=
      ⟨le_min hf0 (by norm_num), min_le_right _ _⟩
    have e2 : 0 ≤ min (max a.flesch_score 0) 100 ∧ min (max a.flesch_score 0) 100 ≤ 100 :=
      ⟨le_min (le_max_right _ _) (by norm_num), min_le_right _ _⟩
    have e3 : 0 ≤ max (100 - (a.total_buzzwords : ℚ) * 10) 0 ∧
        max (100 - (a.total_buzzwords : ℚ) * 10) 0 ≤ 100 := by
      refine ⟨le_max_right _ _, max_le ?_ (by norm_num)⟩
      have : (0 : ℚ) ≤ (a.total_buzzwords : ℚ) * 10 := by positivity
      linarith
    have e4 : 0 ≤ max (100 - (a.missing_required_count : ℚ) * 25) 0 ∧
        max (100 - (a.missing_required_count : ℚ) * 25) 0 ≤ 100 := by
      refine ⟨le_max_right _ _, max_le ?_ (by norm_num)⟩
      have : (0 : ℚ) ≤ (a.missing_required_count : ℚ) * 25 := by positivity
      linarith
    constructor
    · apply div_nonneg _ (by norm_num)
      linarith [e1.1, e2.1, e3.1, e4.1]
    · rw [div_le_iff₀ (by norm_num : (0 : ℚ) < 4)]
      linarith [e1.2, e2.2, e3.2, e4.2]
  · exact ⟨hp0, hp1⟩
  · refine ⟨le_max_right _ _, max_le ?_ (by norm_num)⟩
    have : (0 : ℚ) ≤ (a.chronological_order_issue_count : ℚ) * 15 := by positivity
    linarith
  · exact ⟨hm0, hm1⟩

/-- C2: the fixed per-category weight table of calculate_final_score sums to
exactly 1, and whenever the aggregator's inputs satisfy the ranges its
producing analyzers guarantee (established by the supporting lemmas above),
the weighted final score lies in [0, 100]. -/
theorem C2_weights_sum_and_final_bounds (a : Analysis)
    (hq : 0 ≤ a.quantification_percentage)
    (hs : 0 ≤ a.summary_quality_score)
    (hav0 : 0 ≤ a.action_verb_score) (hav1 : a.action_verb_score ≤ 100)
    (hp0 : 0 ≤ a.professionalism_score) (hp1 : a.professionalism_score ≤ 100)
    (hm0 : 0 ≤ a.modernization_score) (hm1 : a.modernization_score ≤ 100)
    (hf0 : 0 ≤ a.formatting_score) :
    weightsSum = 1 ∧
      0 ≤ (calcFinalScore a).final_score ∧ (calcFinalScore a).final_score ≤ 100 := by
  refine ⟨by norm_num [weightsSum, finalWeights], ?_⟩
  have hb := weightedTotal_bounds a hq hs hav0 hav1 hp0 hp1 hm0 hm1 hf0
  have hfs : (calcFinalScore a).final_score =
      pyRound2 (weightedTotal (categoryScoresOf a)) := rfl
  rw [hfs]
  exact pyRound2_bounds hb.1 hb.2

theorem C2_weights_sum_and_final_bounds_witness :
    weightsSum = 1 ∧
      0 ≤ (calcFinalScore
        { quantification_percentage := 40, has_dates := false,
          format_consistency := false, chronological_order_issue_count := 0,
          has_summary := false, summary_quality_score := 0,
          action_verb_score := 50, buzzword_score := 100,
          total_technical_skills := 2, total_soft_skills := 1,
          missing_required_count := 1, duplicated_count := 0,
          order_is_logical := true, formatting_score := 75, flesch_score := 55,
          total_buzzwords := 0, professionalism_score := 80,
          modernization_score := 90 }).final_score ∧
      (calcFinalScore
        { quantification_percentage := 40, has_dates := false,
          format_consistency := false, chronological_order_issue_count := 0,
          has_summary := false, summary_quality_score := 0,
          action_verb_score := 50, buzzword_score := 100,
          total_technical_skills := 2, total_soft_skills := 1,
          missing_required_count := 1, duplicated_count := 0,
          order_is_logical := true, formatting_score := 75, flesch_score := 55,
          total_buzzwords := 0, professionalism_score := 80,
          modernization_score := 90 }).final_score ≤ 100 :=
  C2_weights_sum_and_final_bounds _ (by norm_num) (by norm_num) (by norm_num)
    (by norm_num) (by norm_num) (by norm_num) (by norm_num) (by norm_num)
    (by norm_num)

/-! ## C3 : the quantification percentage formula -/

/-- C3: for every input text, analyze_quantification_enhanced reports the
number of extracted bullet lines and the number of them matching at least one
of the eight impact-pattern categories, and its percentage equals
100 × quantified / total when total > 0, and 0 when total = 0. -/
theorem C3_quantification_percentage_formula (t : List Char) :
    ((analyzeQuantification t).total_bullets = (bulletsPatA t).length ∧
      (analyzeQuantification t).quantified_count =
        ((bulletsPatA t).filter (matchesAnyImpact true)).length) ∧
    (0 < (analyzeQuantification t).total_bullets →
      (analyzeQuantification t).quantification_percentage =
        100 * ((analyzeQuantification t).quantified_count : ℚ) /
          ((analyzeQuantification t).total_bullets : ℚ)) ∧
    ((analyzeQuantification t).total_bullets = 0 →
      (analyzeQuantification t).quantification_percentage = 0) := by
  unfold analyzeQuantification
  dsimp only
  refine ⟨⟨rfl, rfl⟩, ?_, ?_⟩
  · intro h
    rw [if_pos h]
    ring
  · intro h
    rw [if_neg (by omega)]

theorem C3_quantification_percentage_formula_witness :
    0 < (analyzeQuantification "• Led 5 engineers\n• did stuff".data).total_bullets ∧
      (analyzeQuantification "• Led 5 engineers\n• did stuff".data).quantification_percentage =
        100 * ((analyzeQuantification "• Led 5 engineers\n• did stuff".data).quantified_count : ℚ) /
          ((analyzeQuantification "• Led 5 engineers\n• did stuff".data).total_bullets : ℚ) :=
  ⟨by decide,
   (C3_quantification_percentage_formula "• Led 5 engineers\n• did stuff".data).2.1
     (by decide)⟩

/-! ## C4 : the buzzword score formula -/

theorem countSubGo_zero_eq_zero (w : List Char) :
    ∀ hay : List Char, hasSub hay w = false → countSubGo w 0 hay = 0 := by
  intro hay
  induction hay with
  | nil => intro _; rfl
  | cons c t ih =>
      intro h
      simp only [hasSub, Bool.or_eq_false_iff] at h
      rw [countSubGo]
      simp only [h.1, Bool.false_eq_true, if_false]
      exact ih h.2

theorem countSub_eq_zero_of_not_hasSub (hay w : List Char)
    (h : hasSub hay w = false) : countSub hay w = 0 := by
  unfold countSub
  split_ifs with he
  · rfl
  · exact countSubGo_zero_eq_zero w hay h

theorem buzzTier_sum (low : List Char) (sev : BuzzSev) (ws : List String) :
    ((ws.filter (fun w => hasSub low w.data)).map
        (fun w => sevPenalty sev * (countSub low w.data : ℚ))).sum =
      (ws.map (fun w => (countSub low w.data : ℚ) * sevPenalty sev)).sum := by
  induction ws with
  | nil => simp
  | cons w ws ih =>
      by_cases h : hasSub low w.data
      · rw [List.filter_cons, if_pos (by simpa using h), List.map_cons,
          List.sum_cons, List.map_cons, List.sum_cons, ih]
        ring
      · have hz : countSub low w.data = 0 :=
          countSub_eq_zero_of_not_hasSub _ _ (by simpa using h)
        rw [List.filter_cons, if_neg (by simpa using h), List.map_cons,
          List.sum_cons, ih, hz]
        norm_num

theorem tierEntries_penalty_sum (low : List Char) (p : BuzzSev × List String) :
    ((tierEntries low p).map (fun e => e.penalty)).sum =
      (p.2.map (fun w => (countSub low w.data : ℚ) * sevPenalty p.1)).sum := by
  unfold tierEntries
  rw [List.map_map, ← buzzTier_sum low p.1 p.2]
  rfl

theorem buzzEntries_penalty_sum (low : List Char) :
    ∀ tbl : List (BuzzSev × List String),
      (((tbl.map (tierEntries low)).flatten.map (fun e => e.penalty)).sum) =
        (tbl.map (fun p =>
          (p.2.map (fun w => (countSub low w.data : ℚ) * sevPenalty p.1)).sum)).sum := by
  intro tbl
  induction tbl with
  | nil => simp
  | cons p rest ih =>
      simp only [List.map_cons, List.flatten_cons, List.map_append,
        List.sum_append, ih, List.sum_cons]
      rw [tierEntries_penalty_sum]

theorem pattern_entries_penalty_sum (ms : List (List Char)) :
    ((ms.map patternEntry).map (fun e => e.penalty)).sum = 8 * (ms.length : ℚ) := by
  induction ms with
  | nil => simp
  | cons m t ih =>
      simp only [List.map_cons, List.sum_cons, ih, List.length_cons, patternEntry]
      push_cast
      ring

/-- C4: for every input text, analyze_buzzwords returns
`buzzword_score = max(100 − totalPenalty, 0)`, where totalPenalty is the sum
over the buzzword table of occurrence count × tier penalty
(critical=15, high=10, medium=6, low=3) plus 8 points per occurrence of any
of the five buzzword regex patterns. -/
theorem C4_buzzword_score_formula (t : List Char) :
    (analyzeBuzzwords t).buzzword_score =
      max (100 - (buzzListPenaltySpec (lowerL t) +
        8 * (buzzPatternCount (lowerL t) : ℚ))) 0 ∧
    (analyzeBuzzwords t).total_penalty =
      buzzListPenaltySpec (lowerL t) + 8 * (buzzPatternCount (lowerL t) : ℚ) := by
  have hpen : (analyzeBuzzwords t).total_penalty =
      buzzListPenaltySpec (lowerL t) + 8 * (buzzPatternCount (lowerL t) : ℚ) := by
    show ((buzzListEntries (lowerL t) ++
        ((buzzPatterns.map (fun f => findallPat f (lowerL t))).flatten).map
          patternEntry).map (fun e => e.penalty)).sum = _
    rw [List.map_append, List.sum_append]
    unfold buzzListEntries
    rw [buzzEntries_penalty_sum (lowerL t) buzzTable]
    rw [pattern_entries_penalty_sum]
    unfold buzzListPenaltySpec buzzPatternCount
    congr 1
    rw [List.length_flatten]
    rw [List.map_map]
    push_cast
    rfl
  refine ⟨?_, hpen⟩
  have hsc : (analyzeBuzzwords t).buzzword_score =
      max (100 - (analyzeBuzzwords t).total_penalty) 0 := rfl
  rw [hsc, hpen]

/-! ## C5 : the aggregate action-verb score formula -/

theorem calcActionVerbScore_formula (sp wp ds : ℚ) (bc : Nat) (h : 0 < bc) :
    calcActionVerbScore sp wp ds bc =
      max (min ((8/10) * sp + (15/100) * ds + min ((bc : ℚ) / 8) 1 * 5 -
        (3/10) * wp) 100) 0 := by
  unfold calcActionVerbScore
  rw [if_neg (by omega)]
  ring_nf

/-- C5: for every input text with at least one extracted bullet, the aggregate
action-verb score equals
`0.8·strongPct + 0.15·diversity + min(bullets/8, 1)·5 − 0.3·weakPct` clamped
to [0, 100], with the percentages and diversity score as analyze_action_verbs
computes them. -/
theorem C5_action_verb_score_formula (t : List Char)
    (h : 0 < (analyzeActionVerbs t).total_bullets) :
    (analyzeActionVerbs t).action_verb_score =
      max (min ((8/10) * (analyzeActionVerbs t).strong_percentage +
        (15/100) * (analyzeActionVerbs t).diversity_score +
        min (((analyzeActionVerbs t).total_bullets : ℚ) / 8) 1 * 5 -
        (3/10) * (analyzeActionVerbs t).weak_percentage) 100) 0 ∧
    (analyzeActionVerbs t).strong_percentage =
      ((analyzeActionVerbs t).strong_verb_count : ℚ) /
        ((analyzeActionVerbs t).total_bullets : ℚ) * 100 ∧
    (analyzeActionVerbs t).weak_percentage =
      ((analyzeActionVerbs t).weak_verb_count : ℚ) /
        ((analyzeActionVerbs t).total_bullets : ℚ) * 100 ∧
    (analyzeActionVerbs t).diversity_score =
      (((analyzeActionVerbs t).categories_used.countP (fun p => 0 < p.2)) : ℚ) /
        5 * 100 := by
  have h' : 0 < (extractBullets t).length := h
  have hmax : max (extractBullets t).length 1 = (extractBullets t).length :=
    Nat.max_eq_left h'
  unfold analyzeActionVerbs at *
  dsimp only at *
  rw [hmax]
  refine ⟨?_, rfl, rfl, rfl⟩
  exact calcActionVerbScore_formula _ _ _ _ h'

theorem C5_action_verb_score_formula_witness :
    0 < (analyzeActionVerbs "• Led team of 5 engineers".data).total_bullets ∧
      (analyzeActionVerbs "• Led team of 5 engineers".data).action_verb_score =
        max (min ((8/10) * (analyzeActionVerbs "• Led team of 5 engineers".data).strong_percentage +
          (15/100) * (analyzeActionVerbs "• Led team of 5 engineers".data).diversity_score +
          min (((analyzeActionVerbs "• Led team of 5 engineers".data).total_bullets : ℚ) / 8) 1 * 5 -
          (3/10) * (analyzeActionVerbs "• Led team of 5 engineers".data).weak_percentage) 100) 0 :=
  ⟨by decide,
   (C5_action_verb_score_formula "• Led team of 5 engineers".data (by decide)).1⟩

/-! ## C8 : zero extracted bullets -/

/-- C8: for every input text with no extracted bullets, analyze_action_verbs
returns a zero action-verb score and zero strong/weak percentages; the
percentage computations divide by `max(total_bullets, 1)` and the score
function returns 0 for a zero bullet count, so no division by zero occurs. -/
theorem C8_no_bullets_zero_scores (t : List Char) (h : extractBullets t = []) :
    (analyzeActionVerbs t).action_verb_score = 0 ∧
      (analyzeActionVerbs t).strong_percentage = 0 ∧
      (analyzeActionVerbs t).weak_percentage = 0 := by
  unfold analyzeActionVerbs
  dsimp only
  rw [h]
  simp [calcActionVerbScore]

theorem C8_no_bullets_zero_scores_witness :
    extractBullets "hello".data = [] ∧
      (analyzeActionVerbs "hello".data).action_verb_score = 0 ∧
      (analyzeActionVerbs "hello".data).strong_percentage = 0 ∧
      (analyzeActionVerbs "hello".data).weak_percentage = 0 :=
  ⟨by decide, C8_no_bullets_zero_scores "hello".data (by decide)⟩

/-! ## C6 and C10 : the summary analyzer's two acceptance paths -/

theorem findHeaderIdx_none (p : List Char → Bool) :
    ∀ lines : List (List Char), (∀ l ∈ lines, p l = false) →
      findHeaderIdx p lines = none := by
  intro lines
  induction lines with
  | nil => intro _; rfl
  | cons l t ih =>
      intro h
      have h1 : p l = false := h l (List.mem_cons_self _ _)
      have h2 : findHeaderIdx p t = none :=
        ih (fun x hx => h x (List.mem_cons_of_mem _ hx))
      simp [findHeaderIdx, h1, h2]

theorem findHeaderIdx_isSome (p : List Char → Bool) :
    ∀ lines : List (List Char), (∃ l ∈ lines, p l = true) →
      (findHeaderIdx p lines).isSome = true := by
  intro lines
  induction lines with
  | nil => rintro ⟨l, hl, _⟩; simp at hl
  | cons l t ih =>
      rintro ⟨x, hx, hpx⟩
      by_cases hl : p l
      · simp [findHeaderIdx, hl]
      · rcases List.mem_cons.mp hx with rfl | hxt
        · exact absurd hpx (by simpa using hl)
        · obtain ⟨i, hi⟩ := Option.isSome_iff_exists.mp (ih ⟨x, hxt, hpx⟩)
          simp [findHeaderIdx, hl, hi]

theorem summaryFromLines_no_header (lines : List (List Char))
    (hnone : findHeaderIdx isSummaryHeaderLine lines = none) :
    summaryFromLines lines =
      if 15 ≤ wordCount (joinWith ' ' (inferredBlock lines)) ∧
          wordCount (joinWith ' ' (inferredBlock lines)) ≤ 80 then
        summaryQualityOf (joinWith ' ' (inferredBlock lines))
      else noSummaryResult := by
  unfold summaryFromLines
  rw [hnone]

/-- C6: for every input text without an explicit summary-header line, the
block inferred near the top is reported as a summary exactly when its word
count lies in [15, 80]; outside that range the result has has_summary = false
and quality_score = 0. -/
theorem C6_inferred_summary_gate (t : List Char)
    (hnohdr : ∀ l ∈ cleanLines t, isSummaryHeaderLine l = false) :
    ((analyzeSummaryQuality t).has_summary =
      decide (15 ≤ wordCount (joinWith ' ' (inferredBlock (cleanLines t))) ∧
        wordCount (joinWith ' ' (inferredBlock (cleanLines t))) ≤ 80)) ∧
    ((wordCount (joinWith ' ' (inferredBlock (cleanLines t))) < 15 ∨
        80 < wordCount (joinWith ' ' (inferredBlock (cleanLines t)))) →
      (analyzeSummaryQuality t).has_summary = false ∧
        (analyzeSummaryQuality t).quality_score = 0) := by
  have hnone : findHeaderIdx isSummaryHeaderLine (cleanLines t) = none :=
    findHeaderIdx_none _ _ hnohdr
  have heq : analyzeSummaryQuality t = summaryFromLines (cleanLines t) := rfl
  rw [heq, summaryFromLines_no_header _ hnone]
  by_cases hr : 15 ≤ wordCount (joinWith ' ' (inferredBlock (cleanLines t))) ∧
      wordCount (joinWith ' ' (inferredBlock (cleanLines t))) ≤ 80
  · rw [if_pos hr]
    refine ⟨?_, ?_⟩
    · exact (by exact (decide_eq_true hr).symm)
    · intro hout
      exact absurd hr (by omega)
  · rw [if_neg hr]
    exact ⟨(decide_eq_false hr).symm, fun _ => ⟨rfl, rfl⟩⟩

theorem C6_inferred_summary_gate_witness :
    (∀ l ∈ cleanLines "Alpha beta\nGamma delta".data,
        isSummaryHeaderLine l = false) ∧
      (analyzeSummaryQuality "Alpha beta\nGamma delta".data).has_summary = false ∧
      (analyzeSummaryQuality "Alpha beta\nGamma delta".data).quality_score = 0 :=
  ⟨by decide,
   (C6_inferred_summary_gate "Alpha beta\nGamma delta".data (by decide)).2
     (by decide)⟩

/-- C10: for every input text containing a line of at most five words with one
of the keywords summary/objective/profile/about, analyze_summary_quality
reports has_summary = True — the explicit-header path never reports the
document as having no summary, even with zero body lines after the header. -/
theorem C10_header_implies_summary (t : List Char)
    (h : ∃ l ∈ cleanLines t, isSummaryHeaderLine l = true) :
    (analyzeSummaryQuality t).has_summary = true := by
  obtain ⟨i, hi⟩ := Option.isSome_iff_exists.mp (findHeaderIdx_isSome _ _ h)
  have heq : analyzeSummaryQuality t = summaryFromLines (cleanLines t) := rfl
  rw [heq]
  unfold summaryFromLines
  rw [hi]
  rfl

theorem C10_header_implies_summary_witness :
    (∃ l ∈ cleanLines "John\nSummary".data, isSummaryHeaderLine l = true) ∧
      (analyzeSummaryQuality "John\nSummary".data).has_summary = true :=
  ⟨by decide, C10_header_implies_summary "John\nSummary".data (by decide)⟩

/-! ## C7 : duplicate headers and the section-order analysis -/

theorem sec_mem_logicalOrder (s : Sec) : s ∈ logicalOrder := by
  cases s <;> simp [logicalOrder]

theorem assocSet_contains (l : List (Sec × Nat)) (k : Sec) (v : Nat) :
    containsKey (assocSet l k v) k = true := by
  induction l with
  | nil => simp [assocSet, containsKey]
  | cons p t ih =>
      rcases p with ⟨a, b⟩
      by_cases h : a = k
      · simp [assocSet, h, containsKey]
      · simp only [assocSet, h, if_false, containsKey, Bool.or_eq_true]
        exact Or.inr ih

theorem assocSet_preserves (l : List (Sec × Nat)) (k : Sec) (v : Nat) (x : Sec)
    (h : containsKey l x = true) : containsKey (assocSet l k v) x = true := by
  induction l with
  | nil => simp [containsKey] at h
  | cons p t ih =>
      rcases p with ⟨a, b⟩
      simp only [containsKey, Bool.or_eq_true, decide_eq_true_eq] at h
      by_cases hp : a = k
      · simp only [assocSet, hp, if_true, containsKey, Bool.or_eq_true,
          decide_eq_true_eq]
        rcases h with h | h
        · exact Or.inl (hp ▸ h)
        · exact Or.inr h
      · simp only [assocSet, hp, if_false, containsKey, Bool.or_eq_true,
          decide_eq_true_eq]
        rcases h with h | h
        · exact Or.inl h
        · exact Or.inr (ih h)

theorem logicalPositionsAux_contains :
    ∀ (dets : List Sec) (init : List (Sec × Nat)) (s : Sec),
      (s ∈ dets ∨ containsKey init s = true) →
      containsKey
        (dets.foldl
          (fun acc x =>
            if x ∈ logicalOrder then assocSet acc x (logicalIndex x) else acc)
          init) s = true := by
  intro dets
  induction dets with
  | nil =>
      intro init s h
      rcases h with h | h
      · simp at h
      · exact h
  | cons d t ih =>
      intro init s h
      rw [List.foldl_cons, if_pos (sec_mem_logicalOrder d)]
      apply ih
      rcases h with h | h
      · rcases List.mem_cons.mp h with rfl | hmem
        · exact Or.inr (assocSet_contains _ _ _)
        · exact Or.inl hmem
      · exact Or.inr (assocSet_preserves _ _ _ _ h)

theorem assocSet_values (l : List (Sec × Nat)) (k : Sec)
    (hl : ∀ p ∈ l, p.2 = logicalIndex p.1) :
    ∀ p ∈ assocSet l k (logicalIndex k), p.2 = logicalIndex p.1 := by
  induction l with
  | nil =>
      intro p hp
      simp only [assocSet, List.mem_singleton] at hp
      subst hp
      rfl
  | cons q t ih =>
      rcases q with ⟨a, b⟩
      intro p hp
      by_cases hq : a = k
      · simp only [assocSet, hq, if_true, List.mem_cons] at hp
        rcases hp with rfl | hp
        · simp [hq]
        · exact hl p (List.mem_cons_of_mem _ hp)
      · simp only [assocSet, hq, if_false, List.mem_cons] at hp
        rcases hp with rfl | hp
        · exact hl (a, b) (List.mem_cons_self _ _)
        · exact ih (fun r hr => hl r (List.mem_cons_of_mem _ hr)) p hp

theorem logicalPositionsAux_values :
    ∀ (dets : List Sec) (init : List (Sec × Nat)),
      (∀ p ∈ init, p.2 = logicalIndex p.1) →
      ∀ p ∈ dets.foldl
        (fun acc x =>
          if x ∈ logicalOrder then assocSet acc x (logicalIndex x) else acc)
        init, p.2 = logicalIndex p.1 := by
  intro dets
  induction dets with
  | nil => intro init h; exact h
  | cons d t ih =>
      intro init h
      rw [List.foldl_cons, if_pos (sec_mem_logicalOrder d)]
      exact ih _ (assocSet_values _ _ h)

theorem assocSet_id (l : List (Sec × Nat)) (k : Sec)
    (hk : containsKey l k = true) (hl : ∀ p ∈ l, p.2 = logicalIndex p.1) :
    assocSet l k (logicalIndex k) = l := by
  induction l with
  | nil => simp [containsKey] at hk
  | cons q t ih =>
      by_cases hq : q.1 = k
      · have hv : q.2 = logicalIndex q.1 := hl q (List.mem_cons_self _ _)
        simp only [assocSet, hq, if_true]
        rw [← hq, ← hv]
      · simp only [assocSet, hq, if_false]
        rw [ih (by simpa [containsKey, hq] using hk)
          (fun r hr => hl r (List.mem_cons_of_mem _ hr))]

theorem logicalPositions_append_self (dets : List Sec) (s : Sec) (h : s ∈ dets) :
    logicalPositions (dets ++ [s]) = logicalPositions dets := by
  unfold logicalPositions
  rw [List.foldl_append, List.foldl_cons, List.foldl_nil,
    if_pos (sec_mem_logicalOrder s)]
  exact assocSet_id _ _ (logicalPositionsAux_contains dets [] s (Or.inl h))
    (logicalPositionsAux_values dets [] (by simp))

/-- C7 (amended): the section-order analysis depends only on the set of
detected sections and their first-seen positions, so a duplicated detection
appended to the detected-sections list leaves analyze_section_order
unchanged. -/
theorem C7_order_first_seen_invariance (dets : List Sec)
    (pos : List (Sec × Nat)) (s : Sec) (h : s ∈ dets) :
    analyzeSectionOrder (dets ++ [s]) pos = analyzeSectionOrder dets pos := by
  unfold analyzeSectionOrder
  rw [logicalPositions_append_self dets s h]

theorem C7_order_first_seen_invariance_witness :
    Sec.skills ∈ [Sec.contact, Sec.skills] ∧
      analyzeSectionOrder ([Sec.contact, Sec.skills] ++ [Sec.skills])
          [(Sec.contact, 0), (Sec.skills, 1)] =
        analyzeSectionOrder [Sec.contact, Sec.skills]
          [(Sec.contact, 0), (Sec.skills, 1)] :=
  ⟨by decide,
   C7_order_first_seen_invariance [Sec.contact, Sec.skills]
     [(Sec.contact, 0), (Sec.skills, 1)] Sec.skills (by decide)⟩

/-- C7 counterexample: "SKILLS GPA UNIVERSITY OK" is identified as a header
for the already-detected skills section, yet appending it to the text flips
the is_logical verdict of the order analysis from true to false, because the
line's GPA/university vocabulary triggers content-based inference of a
previously undetected education section. -/
theorem C7_duplicate_header_counterexample :
    identifySection "SKILLS GPA UNIVERSITY OK".data = some Sec.skills ∧
      Sec.skills ∈ (analyzeSections "Contact\nExperience\nSkills".data).detectedRaw ∧
      (analyzeSections
        "Contact\nExperience\nSkills".data).order_analysis.is_logical = true ∧
      (analyzeSections ("Contact\nExperience\nSkills".data ++
        '\n' :: "SKILLS GPA UNIVERSITY OK".data)).order_analysis.is_logical
        = false := by
  decide

/-! ## C9 : the formatting score takes only three values -/

/-- C9: for every input text, the formatting score of analyze_formatting is
one of exactly 50, 75 and 100 (100 minus 25 per inconsistency), hence never
below 50. -/
theorem C9_formatting_score_values (t : List Char) :
    ((analyzeFormatting t).formatting_score = 50 ∨
      (analyzeFormatting t).formatting_score = 75 ∨
      (analyzeFormatting t).formatting_score = 100) ∧
    50 ≤ (analyzeFormatting t).formatting_score := by
  have hfs : (analyzeFormatting t).formatting_score =
      calcFormattingScore (analyzeFormatting t).bullet_consistency
        (analyzeFormatting t).date_consistency := rfl
  rw [hfs]
  rcases calcFormattingScore_cases (analyzeFormatting t).bullet_consistency
      (analyzeFormatting t).date_consistency with h | h | h <;>
    rw [h] <;> norm_num

end RV
